import Mathlib

/-!
Verification development for the `cerebellar-extraction` repository
(`functions-python/main.py` and `functions-python/local_server.py`).

The Python cloud functions are shallowly embedded: each HTTP function's pure
processing pipeline is translated into a Lean function over explicit inputs.
The third-party PDF libraries (pdfplumber, PyMuPDF/fitz, PIL) are not part of
the repository, so their outputs — per-page extracted text, word lists with
bounding boxes, raw table grids, image lists — are the inputs of the embedded
functions, and imaging output (PNG bytes / base64 payloads of rendered
pixmaps) is abstracted away where it does not affect the claims.  All string
manipulation (strip, lower, split, join) is re-implemented over `List Char`
with Python semantics so that every definition evaluates inside the kernel.
-/

/-! ## Python-style string helpers -/

/-- Python `str.strip()`: remove leading and trailing whitespace. -/
def pyStrip (s : String) : String :=
  ⟨((s.data.dropWhile Char.isWhitespace).reverse.dropWhile Char.isWhitespace).reverse⟩

/-- Python `str.lower()` (character-wise lowering; ASCII-faithful). -/
def pyLower (s : String) : String :=
  ⟨s.data.map Char.toLower⟩

/-- Split a character list at newline characters, Python `str.split('\n')`
semantics: `""` yields `[""]`, separators at the ends yield empty pieces. -/
def splitNlChars : List Char → List (List Char)
  | [] => [[]]
  | c :: cs =>
    if c = '\n' then [] :: splitNlChars cs
    else
      match splitNlChars cs with
      | [] => [[c]]
      | l :: ls => (c :: l) :: ls

/-- Python `page_text.split('\n')` on a string. -/
def pyLines (s : String) : List String :=
  (splitNlChars s.data).map String.mk

/-- Maximal runs of non-whitespace characters, Python `str.split()` with no
argument. -/
def wsTokens : List Char → List (List Char)
  | [] => []
  | [c] => if c.isWhitespace then [] else [[c]]
  | c :: d :: cs =>
    if c.isWhitespace then wsTokens (d :: cs)
    else
      if d.isWhitespace then [c] :: wsTokens (d :: cs)
      else
        match wsTokens (d :: cs) with
        | [] => [[c]]
        | t :: ts => (c :: t) :: ts

/-- Python `' '.join(s.split())`: collapse whitespace runs to single spaces
and drop surrounding whitespace. -/
def pyNormSpace (s : String) : String :=
  ⟨List.intercalate [' '] (wsTokens s.data)⟩

/-- Python slice `s[a:b]` for `0 ≤ a ≤ b` (character indices). -/
def strSub (s : String) (a b : Nat) : String :=
  ⟨(s.data.drop a).take (b - a)⟩

/-- Drop leading whitespace, the `\s*` step of an anchored regex match. -/
def wsDrop (cs : List Char) : List Char :=
  cs.dropWhile Char.isWhitespace

/-- Does the character list start with a decimal digit (`\d`)? -/
def startsDigit : List Char → Bool
  | [] => false
  | c :: _ => c.isDigit

/-- Case-insensitive removal of a literal pattern (given in lowercase), the
semantics of matching a literal under `re.IGNORECASE`; returns the remaining
characters on success. -/
def chopCI : List Char → List Char → Option (List Char)
  | [], rest => some rest
  | _ :: _, [] => none
  | p :: ps, c :: cs => if c.toLower = p then chopCI ps cs else none

/-! ## `extract_text_with_positions` (main.py lines 189-258)

A word as returned by pdfplumber's `page.extract_words()`: its text plus the
bounding-box numbers read by the function (`x0`, `x1`, `top`, `bottom`).
Coordinates are modelled as integers; the function only copies and subtracts
them, so their numeric type does not affect any claim. -/

structure PWord where
  wtext : String
  x0 : Int
  x1 : Int
  top : Int
  bottom : Int
deriving DecidableEq, Repr

/-- One entry of the returned `positions` array. -/
structure PosEntry where
  ptext : String
  startChar : Nat
  endChar : Nat
  x : Int
  y : Int
  pwidth : Int
  pheight : Int
  page : Nat
deriving DecidableEq, Repr

/-- The loop state of `extract_text_with_positions`: the `positions` list, the
accumulated `full_text`, and `global_char_index`. -/
structure PosState where
  positions : List PosEntry
  full_text : String
  gci : Nat
deriving Repr

/-- Body of the inner `for word in words` loop (main.py lines 220-237). -/
def wordStep (page_num : Nat) (st : PosState) (w : PWord) : PosState :=
  let start_char := st.gci
  let end_char := st.gci + w.wtext.length
  let positions := st.positions ++
    [⟨w.wtext, start_char, end_char, w.x0, w.top, w.x1 - w.x0, w.bottom - w.top, page_num⟩]
  let full_text := st.full_text ++ w.wtext ++ " "
  ⟨positions, full_text, full_text.length⟩

/-- One iteration of the page loop: process all words, then append the page
separator `"\n\n"` (main.py lines 216-241). -/
def posPageStep (st : PosState) (page_num : Nat) (ws : List PWord) : PosState :=
  let st2 := ws.foldl (wordStep page_num) st
  let full_text := st2.full_text ++ "\n\n"
  ⟨st2.positions, full_text, full_text.length⟩

/-- The page loop, with 1-based page numbers (`enumerate(pdf.pages, 1)`). -/
def posRun : PosState → Nat → List (List PWord) → PosState
  | st, _, [] => st
  | st, pn, ws :: rest => posRun (posPageStep st (pn + 1) ws) (pn + 1) rest

/-- `extract_text_with_positions`: the returned `positions` array and `text`
field (`full_text.strip()`).  The input is the per-page word lists produced by
pdfplumber. -/
def extractTextWithPositionsCore (pages : List (List PWord)) :
    List PosEntry × String :=
  let st := posRun ⟨[], "", 0⟩ 0 pages
  (st.positions, pyStrip st.full_text)

/-! ## Invariants of the position accumulator -/

/-- An entry correctly locates its word inside the character list `ft` of the
accumulated full text. -/
def entryOk (ft : List Char) (e : PosEntry) : Prop :=
  e.endChar = e.startChar + e.ptext.length ∧
  e.endChar ≤ ft.length ∧
  (ft.drop e.startChar).take e.ptext.length = e.ptext.data

/-- Pairwise ordering between consecutive position entries. -/
def posStepRel (a b : PosEntry) : Prop :=
  a.startChar < b.startChar ∧ a.endChar + 1 ≤ b.startChar ∧ a.page ≤ b.page

/-- Invariant of the `extract_text_with_positions` loop state after
processing pages up to page number `pn`. -/
structure PosInv (pn : Nat) (st : PosState) : Prop where
  gci_eq : st.gci = st.full_text.data.length
  entries : ∀ e ∈ st.positions, entryOk st.full_text.data e ∧ e.page ≤ pn
  last_lt : ∀ e, st.positions.getLast? = some e → e.endChar + 1 ≤ st.gci
  chain : List.Chain' posStepRel st.positions

theorem drop_take_of_front (l1 l2 : List Char) (a k : Nat) (h : a + k ≤ l1.length) :
    ((l1 ++ l2).drop a).take k = (l1.drop a).take k := by
  rw [List.drop_append_of_le_length (by omega),
    List.take_append_of_le_length (by simp; omega)]

theorem entryOk_append (ft more : List Char) (e : PosEntry) (h : entryOk ft e) :
    entryOk (ft ++ more) e := by
  obtain ⟨h1, h2, h3⟩ := h
  refine ⟨h1, by simp; omega, ?_⟩
  rw [drop_take_of_front ft more _ _ (by omega)]
  exact h3

theorem posInv_mono {pn m : Nat} {st : PosState} (h : PosInv pn st) (hle : pn ≤ m) :
    PosInv m st := by
  obtain ⟨g, ents, last, ch⟩ := h
  exact ⟨g, fun e he => ⟨(ents e he).1, le_trans (ents e he).2 hle⟩, last, ch⟩

theorem chain'_append_singleton {α : Type} (R : α → α → Prop) (l : List α) (x : α)
    (h : List.Chain' R l) (h2 : ∀ a, l.getLast? = some a → R a x) :
    List.Chain' R (l ++ [x]) := by
  rw [List.chain'_append]
  refine ⟨h, List.chain'_singleton x, ?_⟩
  intro a ha y hy
  simp at hy
  subst hy
  exact h2 a ha

theorem mem_of_getLast?_eq {α : Type} {l : List α} {x : α}
    (h : l.getLast? = some x) : x ∈ l := by
  have hx : x ∈ l.getLast? := h
  obtain ⟨hne, rfl⟩ := List.mem_getLast?_eq_getLast hx
  exact List.getLast_mem hne

theorem wordStep_eq (pn : Nat) (st : PosState) (w : PWord) :
    wordStep pn st w =
      ⟨st.positions ++ [⟨w.wtext, st.gci, st.gci + w.wtext.length, w.x0, w.top,
          w.x1 - w.x0, w.bottom - w.top, pn⟩],
        st.full_text ++ w.wtext ++ " ",
        st.full_text.length + w.wtext.length + 1⟩ := by
  simp only [wordStep, String.length_append]
  rfl

theorem append_word_data (s t : String) :
    (s ++ t ++ " ").data = s.data ++ (t.data ++ [' ']) := by
  rw [String.data_append, String.data_append, List.append_assoc]

theorem wordStep_inv {pn : Nat} {st : PosState} (w : PWord) (h : PosInv pn st) :
    PosInv pn (wordStep pn st w) := by
  obtain ⟨g, ents, last, ch⟩ := h
  rw [wordStep_eq]
  have hdata := append_word_data st.full_text w.wtext
  have hlen : (st.full_text ++ w.wtext ++ " ").data.length
      = st.full_text.data.length + w.wtext.length + 1 := by
    rw [hdata]
    simp only [List.length_append, List.length_cons, List.length_nil]
    rfl
  have hnew : entryOk (st.full_text ++ w.wtext ++ " ").data
      ⟨w.wtext, st.gci, st.gci + w.wtext.length, w.x0, w.top, w.x1 - w.x0,
        w.bottom - w.top, pn⟩ := by
    refine ⟨rfl, ?_, ?_⟩
    · show st.gci + w.wtext.length ≤ (st.full_text ++ w.wtext ++ " ").data.length
      rw [hlen]
      omega
    · show (((st.full_text ++ w.wtext ++ " ").data).drop st.gci).take w.wtext.length
        = w.wtext.data
      rw [hdata, g]
      rw [show st.full_text.data.length = (st.full_text.data).length from rfl,
        List.drop_left]
      rw [show (w.wtext.length : Nat) = (w.wtext.data).length from rfl,
        List.take_left]
  constructor
  · show st.full_text.length + w.wtext.length + 1 = _
    rw [hlen]
    rfl
  · intro e he
    rcases List.mem_append.1 he with he | he
    · have hext := entryOk_append st.full_text.data (w.wtext.data ++ [' '])
        e (ents e he).1
      rw [← hdata] at hext
      exact ⟨hext, (ents e he).2⟩
    · rcases List.mem_singleton.1 he with rfl
      exact ⟨hnew, le_refl pn⟩
  · intro e he
    rw [List.getLast?_concat] at he
    cases he
    show (st.gci + w.wtext.length) + 1 ≤ st.full_text.length + w.wtext.length + 1
    rw [g]
    rfl
  · refine chain'_append_singleton _ _ _ ch ?_
    intro a ha
    have h1 := last a ha
    have h2 := (ents a (mem_of_getLast?_eq ha)).1
    obtain ⟨e1, _, _⟩ := h2
    refine ⟨by simp only; omega, by simp only; omega, ?_⟩
    exact (ents a (mem_of_getLast?_eq ha)).2

theorem foldWords_inv {pn : Nat} (ws : List PWord) :
    ∀ {st : PosState}, PosInv pn st → PosInv pn (ws.foldl (wordStep pn) st) := by
  induction ws with
  | nil => intro st h; exact h
  | cons w rest ih =>
    intro st h
    exact ih (wordStep_inv w h)

theorem posPageStep_inv {pn : Nat} {st : PosState} (ws : List PWord)
    (h : PosInv pn st) : PosInv (pn + 1) (posPageStep st (pn + 1) ws) := by
  obtain ⟨g, ents, last, ch⟩ := foldWords_inv ws (posInv_mono h (Nat.le_succ pn))
  set st2 := ws.foldl (wordStep (pn + 1)) st with hst2
  have hdata : (st2.full_text ++ "\n\n").data = st2.full_text.data ++ ['\n', '\n'] := by
    rw [String.data_append]
  constructor
  · show (st2.full_text ++ "\n\n").length = (st2.full_text ++ "\n\n").data.length
    rfl
  · intro e he
    have hext := entryOk_append st2.full_text.data ['\n', '\n'] e (ents e he).1
    rw [← hdata] at hext
    exact ⟨hext, (ents e he).2⟩
  · intro e he
    have h1 := last e he
    show e.endChar + 1 ≤ (st2.full_text ++ "\n\n").length
    rw [String.length_append]
    have hc1 : st2.full_text.length = st2.full_text.data.length := rfl
    have hc2 : ("\n\n" : String).length = 2 := rfl
    omega
  · exact ch

theorem posRun_inv (pages : List (List PWord)) :
    ∀ (pn : Nat) (st : PosState), PosInv pn st →
      PosInv (pn + pages.length) (posRun st pn pages) := by
  induction pages with
  | nil => intro pn st h; exact h
  | cons ws rest ih =>
    intro pn st h
    have h2 := posPageStep_inv ws h
    have h3 := ih (pn + 1) _ h2
    exact posInv_mono h3 (by simp [List.length_cons]; omega)

theorem positions_inv (pages : List (List PWord)) :
    PosInv pages.length (posRun ⟨[], "", 0⟩ 0 pages) := by
  have h0 : PosInv 0 ⟨[], "", 0⟩ := by
    constructor
    · rfl
    · intro e he; cases he
    · intro e he; cases he
    · exact List.chain'_nil
  have := posRun_inv pages 0 _ h0
  simpa using this

/-! ## Claims C2 and C7 -/

/-- C2, counterexample: on a PDF whose first page has no words and whose
second page has the single word `"hi"`, the single position entry carries
`startChar = 2`, `endChar = 4`, but the returned text (`full_text.strip()`)
is `"hi"`, whose slice `[2:4]` is empty, not `"hi"`: the leading page
separator is stripped away, so the offsets do not point into the returned
text. -/
theorem extract_positions_strip_counterexample :
    (extractTextWithPositionsCore [[], [⟨"hi", 0, 0, 0, 0⟩]]).1.map
        (fun e => (e.startChar, e.endChar, e.ptext))
      = [(2, 4, "hi")] ∧
    (extractTextWithPositionsCore [[], [⟨"hi", 0, 0, 0, 0⟩]]).2 = "hi" ∧
    strSub (extractTextWithPositionsCore [[], [⟨"hi", 0, 0, 0, 0⟩]]).2 2 4 ≠ "hi" := by
  refine ⟨by decide, by decide, by decide⟩

/-- C2 (amended): every position entry satisfies
`endChar = startChar + len(text)`, and the entry's slice
`[startChar:endChar]` of the accumulated `full_text` (before the final
`.strip()`) equals the entry's word text; the `text` field actually returned
is `full_text.strip()`, so the same holds of the returned text exactly when
stripping removes nothing from the front. -/
theorem extract_positions_offsets_in_full_text (pages : List (List PWord)) :
    (extractTextWithPositionsCore pages).2
        = pyStrip (posRun ⟨[], "", 0⟩ 0 pages).full_text ∧
    ∀ e ∈ (extractTextWithPositionsCore pages).1,
      e.endChar = e.startChar + e.ptext.length ∧
      strSub (posRun ⟨[], "", 0⟩ 0 pages).full_text e.startChar e.endChar = e.ptext := by
  obtain ⟨g, ents, last, ch⟩ := positions_inv pages
  refine ⟨rfl, ?_⟩
  intro e he
  obtain ⟨e1, e2, e3⟩ := (ents e he).1
  refine ⟨e1, ?_⟩
  show String.mk _ = e.ptext
  have : e.endChar - e.startChar = e.ptext.length := by omega
  rw [this, e3]

/-- C2 (amended) witness at a concrete input. -/
theorem extract_positions_offsets_witness :
    (⟨"ab", 1, 3, 2, 4⟩ : PWord) ∈ ([[⟨"ab", 1, 3, 2, 4⟩]] : List (List PWord)).headI ∧
    ∀ e ∈ (extractTextWithPositionsCore [[⟨"ab", 1, 3, 2, 4⟩]]).1,
      e.endChar = e.startChar + e.ptext.length ∧
      strSub (posRun ⟨[], "", 0⟩ 0 [[⟨"ab", 1, 3, 2, 4⟩]]).full_text e.startChar e.endChar
        = e.ptext :=
  ⟨by decide, (extract_positions_offsets_in_full_text [[⟨"ab", 1, 3, 2, 4⟩]]).2⟩

/-- C7: in the returned positions list, `startChar` is strictly increasing,
each entry's `startChar < endChar` when its word is non-empty, each next
entry's `startChar` is at least the previous entry's `endChar + 1`, and the
`page` fields are non-decreasing. -/
theorem extract_positions_monotone (pages : List (List PWord)) :
    List.Chain' posStepRel (extractTextWithPositionsCore pages).1 ∧
    ∀ e ∈ (extractTextWithPositionsCore pages).1,
      e.ptext ≠ "" → e.startChar < e.endChar := by
  obtain ⟨g, ents, last, ch⟩ := positions_inv pages
  refine ⟨ch, ?_⟩
  intro e he hne
  obtain ⟨e1, _, _⟩ := (ents e he).1
  have : 1 ≤ e.ptext.length := by
    cases hp : e.ptext with
    | mk cs =>
      cases cs with
      | nil => exact absurd hp (by simpa using hne)
      | cons c cs2 => simp [String.length, hp]
  omega

/-- C7 witness at a concrete input: two words on one page. -/
theorem extract_positions_monotone_witness :
    List.Chain' posStepRel
      (extractTextWithPositionsCore [[⟨"ab", 0, 0, 0, 0⟩, ⟨"c", 0, 0, 0, 0⟩]]).1 ∧
    ∀ e ∈ (extractTextWithPositionsCore [[⟨"ab", 0, 0, 0, 0⟩, ⟨"c", 0, 0, 0, 0⟩]]).1,
      e.ptext ≠ "" → e.startChar < e.endChar :=
  extract_positions_monotone [[⟨"ab", 0, 0, 0, 0⟩, ⟨"c", 0, 0, 0, 0⟩]]

/-! ## `extract_text_with_layout` (main.py lines 60-119)

One page as seen by the function: the result of `page.extract_text()`
(`none` models `None`) plus the `width`/`height` numbers it copies. -/

structure LayoutPageIn where
  ltext : Option String
  lwidth : Int
  lheight : Int
deriving DecidableEq, Repr

/-- One entry of the returned `pages` array. -/
structure LayoutPageOut where
  page : Nat
  ltext : String
  lwidth : Int
  lheight : Int
deriving DecidableEq, Repr

/-- Result of `extract_text_with_layout`: the `text`, `pages` and
`page_count` fields of the success payload. -/
structure LayoutResult where
  text : String
  pages : List LayoutPageOut
  page_count : Nat
deriving DecidableEq, Repr

/-- The per-page separator header `"\n\n--- Page {i} ---\n\n"`. -/
def pageHeader (i : Nat) : String :=
  "\n\n--- Page " ++ toString i ++ " ---\n\n"

/-- Body of the `for i, page in enumerate(pdf.pages)` loop (main.py
lines 94-102): append the page record and extend `full_text`. -/
def layoutStep (acc : List LayoutPageOut × String) (i : Nat) (p : LayoutPageIn) :
    List LayoutPageOut × String :=
  let page_text := p.ltext.getD ""
  (acc.1 ++ [⟨i + 1, page_text, p.lwidth, p.lheight⟩],
    acc.2 ++ (pageHeader (i + 1) ++ page_text))

/-- The enumerated page loop. -/
def layoutRun : (List LayoutPageOut × String) → Nat → List LayoutPageIn →
    List LayoutPageOut × String
  | acc, _, [] => acc
  | acc, i, p :: rest => layoutRun (layoutStep acc i p) (i + 1) rest

/-- `extract_text_with_layout`: build `pages_text` and `full_text`, return
`full_text.strip()`, the page records and `page_count = len(pages_text)`. -/
def extractTextWithLayoutCore (pages : List LayoutPageIn) : LayoutResult :=
  let r := layoutRun ([], "") 0 pages
  ⟨pyStrip r.2, r.1, r.1.length⟩

theorem str_append_assoc (a b c : String) : a ++ b ++ c = a ++ (b ++ c) := by
  apply String.ext
  simp [String.data_append, List.append_assoc]

theorem str_empty_append (a : String) : "" ++ a = a := by
  apply String.ext
  simp [String.data_append]

theorem str_append_empty (a : String) : a ++ "" = a := by
  apply String.ext
  simp [String.data_append]

theorem foldl_str_append (l : List String) :
    ∀ (a : String), List.foldl (fun r s => r ++ s) a l
      = a ++ List.foldl (fun r s => r ++ s) "" l := by
  induction l with
  | nil => intro a; simp [str_append_empty]
  | cons x xs ih =>
    intro a
    simp only [List.foldl_cons]
    rw [ih (a ++ x), ih ("" ++ x), str_empty_append, str_append_assoc]

theorem string_join_cons (s : String) (l : List String) :
    String.join (s :: l) = s ++ String.join l := by
  show List.foldl (fun r s => r ++ s) ("" ++ s) l = _
  rw [str_empty_append, foldl_str_append]
  rfl

theorem layoutRun_eq (pages : List LayoutPageIn) :
    ∀ (outs : List LayoutPageOut) (txt : String) (k : Nat),
      layoutRun (outs, txt) k pages =
        (outs ++ (List.enumFrom k pages).map
            (fun ip => ⟨ip.1 + 1, ip.2.ltext.getD "", ip.2.lwidth, ip.2.lheight⟩),
          txt ++ String.join ((List.enumFrom k pages).map
            (fun ip => pageHeader (ip.1 + 1) ++ ip.2.ltext.getD ""))) := by
  induction pages with
  | nil =>
    intro outs txt k
    simp [layoutRun, String.join, str_append_empty]
  | cons p rest ih =>
    intro outs txt k
    simp only [layoutRun, layoutStep]
    rw [ih]
    simp only [List.enumFrom_cons, List.map_cons, string_join_cons]
    refine congrArg₂ Prod.mk ?_ ?_
    · rw [List.append_assoc]
      rfl
    · rw [str_append_assoc]

theorem map_page_enumFrom (l : List LayoutPageIn) :
    ∀ (k : Nat),
      (((List.enumFrom k l).map (fun ip =>
          (⟨ip.1 + 1, ip.2.ltext.getD "", ip.2.lwidth, ip.2.lheight⟩ : LayoutPageOut))).map
        (fun p => p.page)) = List.range' (k + 1) l.length := by
  induction l with
  | nil => intro k; simp
  | cons p rest ih =>
    intro k
    simp only [List.enumFrom_cons, List.map_cons, List.length_cons, List.range'_succ]
    rw [ih (k + 1)]

theorem map_ltext_enumFrom (l : List LayoutPageIn) :
    ∀ (k : Nat),
      (((List.enumFrom k l).map (fun ip =>
          (⟨ip.1 + 1, ip.2.ltext.getD "", ip.2.lwidth, ip.2.lheight⟩ : LayoutPageOut))).map
        (fun p => p.ltext)) = l.map (fun p => p.ltext.getD "") := by
  induction l with
  | nil => intro k; simp
  | cons p rest ih =>
    intro k
    simp only [List.enumFrom_cons, List.map_cons]
    rw [ih (k + 1)]

/-- C6: for a PDF with `N` pages, `extract_text_with_layout` reports
`page_count = N`, the `pages` array has entries numbered `1..N` in order,
each entry's `text` is the page's extracted text (`""` when the library
returns `None`), and `text` is the concatenation of
`"\n\n--- Page i ---\n\n"` plus page `i`'s text over all pages, stripped of
surrounding whitespace. -/
theorem extract_text_with_layout_shape (pages : List LayoutPageIn) :
    (extractTextWithLayoutCore pages).page_count = pages.length ∧
    (extractTextWithLayoutCore pages).pages.map (fun p => p.page)
      = List.range' 1 pages.length ∧
    (extractTextWithLayoutCore pages).pages.map (fun p => p.ltext)
      = pages.map (fun p => p.ltext.getD "") ∧
    (extractTextWithLayoutCore pages).text
      = pyStrip (String.join ((List.enumFrom 0 pages).map
          (fun ip => pageHeader (ip.1 + 1) ++ ip.2.ltext.getD ""))) := by
  have hrun := layoutRun_eq pages [] "" 0
  refine ⟨?_, ?_, ?_, ?_⟩
  · show (layoutRun ([], "") 0 pages).1.length = pages.length
    rw [hrun]
    simp
  · show ((layoutRun ([], "") 0 pages).1.map (fun p => p.page)) = _
    rw [hrun]
    simp only [List.nil_append]
    exact map_page_enumFrom pages 0
  · show ((layoutRun ([], "") 0 pages).1.map (fun p => p.ltext)) = _
    rw [hrun]
    simp only [List.nil_append]
    exact map_ltext_enumFrom pages 0
  · show pyStrip (layoutRun ([], "") 0 pages).2 = _
    rw [hrun]
    rw [str_empty_append]

/-! ## `detect_sections` (main.py lines 267-354)

The ten regular expressions of `SECTION_PATTERNS` are translated into
decidable predicates over the stripped, lowercased line.  Anchored
whole-line alternations (`^(a|b)$`) become equality with one of the
lowercase literals; `^table\s*\d` and `^(figure|fig\.?)\s*\d` become
case-insensitive literal matching followed by whitespace skipping and a
digit test, which is exactly the backtracking semantics of those patterns
(the involved character classes are pairwise disjoint). -/

def pEq (w : String) (s : String) : Bool := s == w

def pAlt (ws : List String) (s : String) : Bool := ws.any (fun w => s == w)

/-- The pattern `^table\s*\d` under `re.IGNORECASE`. -/
def patTableHeading (s : String) : Bool :=
  match chopCI "table".data s.data with
  | some rest => startsDigit (wsDrop rest)
  | none => false

/-- The pattern `^(figure|fig\.?)\s*\d` under `re.IGNORECASE`. -/
def patFigureHeading (s : String) : Bool :=
  (match chopCI "figure".data s.data with
   | some rest => startsDigit (wsDrop rest)
   | none => false) ||
  (match chopCI "fig.".data s.data with
   | some rest => startsDigit (wsDrop rest)
   | none => false) ||
  (match chopCI "fig".data s.data with
   | some rest => startsDigit (wsDrop rest)
   | none => false)

/-- `SECTION_PATTERNS` of main.py lines 277-288, in source order. -/
def SECTION_PATTERNS : List ((String → Bool) × String) :=
  [(pEq "abstract", "abstract"),
   (pAlt ["introduction", "background"], "introduction"),
   (pAlt ["methods", "patients", "materials", "study design", "subjects"], "methods"),
   (pAlt ["patients and methods", "materials and methods"], "methods"),
   (pEq "results", "results"),
   (pEq "discussion", "discussion"),
   (pAlt ["conclusion", "conclusions"], "conclusion"),
   (pAlt ["references", "bibliography"], "references"),
   (patTableHeading, "table"),
   (patFigureHeading, "figure")]

/-- One element of the returned `sections` array. -/
structure DocSection where
  name : String
  start_char : Nat
  end_char : Nat
  page : Nat
deriving DecidableEq, Repr

/-- Loop state of `detect_sections`: accumulated sections, `current_section`,
`section_start` and `global_char_index`. -/
structure SecState where
  sections : List DocSection
  current : String
  section_start : Nat
  gci : Nat
deriving DecidableEq, Repr

/-- The inner `for pattern, section_name in SECTION_PATTERNS` loop with its
`break`: return the label of the first matching pattern, if any. -/
def scanPatterns : List ((String → Bool) × String) → String → Option String
  | [], _ => none
  | p :: ps, s => if p.1 s then some p.2 else scanPatterns ps s

/-- Body of the `for line in lines` loop (main.py lines 311-329). -/
def lineStep (page_num : Nat) (st : SecState) (line : String) : SecState :=
  let line_lower := pyLower (pyStrip line)
  let st2 :=
    match scanPatterns SECTION_PATTERNS line_lower with
    | some section_name =>
      let secs : List DocSection :=
        if st.current ≠ "unknown" then
          st.sections ++ [(⟨st.current, st.section_start, st.gci, page_num⟩ : DocSection)]
        else st.sections
      (⟨secs, section_name, st.gci, st.gci⟩ : SecState)
    | none => st
  ⟨st2.sections, st2.current, st2.section_start, st2.gci + line.length + 1⟩

/-- One iteration of the page loop of main.py's `detect_sections`: the page's
words are extracted but never used (main.py line 307), then each line of the
page text is processed. -/
def mainSecPageStep (st : SecState) (page_num : Nat)
    (p : Option String × List PWord) : SecState :=
  let _words := p.2
  let page_text := p.1.getD ""
  (pyLines page_text).foldl (lineStep page_num) st

/-- The page loop of main.py's `detect_sections` (`enumerate(pdf.pages, 1)`). -/
def mainSecRun : SecState → Nat → List (Option String × List PWord) → SecState
  | st, _, [] => st
  | st, pn, p :: rest => mainSecRun (mainSecPageStep st (pn + 1) p) (pn + 1) rest

/-- main.py `detect_sections`: run the loops, then append the final section
when `current_section != "unknown"` (the final `page_num` is the number of
pages); returns the `sections` list and `section_count`. -/
def mainDetectSections (pages : List (Option String × List PWord)) :
    List DocSection × Nat :=
  let st := mainSecRun ⟨[], "unknown", 0, 0⟩ 0 pages
  let secs : List DocSection :=
    if st.current ≠ "unknown" then
      st.sections ++ [⟨st.current, st.section_start, st.gci, pages.length⟩]
    else st.sections
  (secs, secs.length)

/-! ### The near-identical copy in local_server.py (lines 154-210) -/

/-- `SECTION_PATTERNS` of local_server.py lines 156-167 (same ten regexes). -/
def LS_SECTION_PATTERNS : List ((String → Bool) × String) :=
  [(pEq "abstract", "abstract"),
   (pAlt ["introduction", "background"], "introduction"),
   (pAlt ["methods", "patients", "materials", "study design", "subjects"], "methods"),
   (pAlt ["patients and methods", "materials and methods"], "methods"),
   (pEq "results", "results"),
   (pEq "discussion", "discussion"),
   (pAlt ["conclusion", "conclusions"], "conclusion"),
   (pAlt ["references", "bibliography"], "references"),
   (patTableHeading, "table"),
   (patFigureHeading, "figure")]

/-- The inner pattern loop of local_server.py's `detect_sections`. -/
def lsScanPatterns : List ((String → Bool) × String) → String → Option String
  | [], _ => none
  | p :: ps, s => if p.1 s then some p.2 else lsScanPatterns ps s

/-- Body of the line loop of local_server.py's `detect_sections`
(lines 179-196). -/
def lsLineStep (page_num : Nat) (st : SecState) (line : String) : SecState :=
  let line_lower := pyLower (pyStrip line)
  let st2 :=
    match lsScanPatterns LS_SECTION_PATTERNS line_lower with
    | some section_name =>
      let secs : List DocSection :=
        if st.current ≠ "unknown" then
          st.sections ++ [(⟨st.current, st.section_start, st.gci, page_num⟩ : DocSection)]
        else st.sections
      (⟨secs, section_name, st.gci, st.gci⟩ : SecState)
    | none => st
  ⟨st2.sections, st2.current, st2.section_start, st2.gci + line.length + 1⟩

/-- Page iteration of local_server.py's `detect_sections` (no word
extraction). -/
def lsSecPageStep (st : SecState) (page_num : Nat) (p : Option String) : SecState :=
  (pyLines (p.getD "")).foldl (lsLineStep page_num) st

/-- Page loop of local_server.py's `detect_sections`. -/
def lsSecRun : SecState → Nat → List (Option String) → SecState
  | st, _, [] => st
  | st, pn, p :: rest => lsSecRun (lsSecPageStep st (pn + 1) p) (pn + 1) rest

/-- local_server.py `detect_sections` (lines 154-210). -/
def lsDetectSections (pages : List (Option String)) : List DocSection × Nat :=
  let st := lsSecRun ⟨[], "unknown", 0, 0⟩ 0 pages
  let secs : List DocSection :=
    if st.current ≠ "unknown" then
      st.sections ++ [⟨st.current, st.section_start, st.gci, pages.length⟩]
    else st.sections
  (secs, secs.length)

/-! ## Claims C3 and C4 -/

theorem scanPatterns_eq_find? (ps : List ((String → Bool) × String)) (s : String) :
    scanPatterns ps s = (ps.find? (fun p => p.1 s)).map Prod.snd := by
  induction ps with
  | nil => rfl
  | cons p rest ih =>
    simp only [scanPatterns, List.find?_cons]
    by_cases h : p.1 s
    · simp [h]
    · simp [h, ih]

/-- C3: each line of page text is assigned a section label by a linear scan
over the fixed ten-element `SECTION_PATTERNS` list: the stripped, lowercased
line is tested against the patterns in list order, the first match sets the
current section to that pattern's label (and the scan stops, which is what
`List.find?` computes), and when no pattern matches the current section is
left unchanged. -/
theorem detect_sections_line_scan (page_num : Nat) (st : SecState) (line : String) :
    SECTION_PATTERNS.length = 10 ∧
    (lineStep page_num st line).current =
      ((SECTION_PATTERNS.find? (fun p => p.1 (pyLower (pyStrip line)))).map
          Prod.snd).getD st.current := by
  refine ⟨rfl, ?_⟩
  show (lineStep page_num st line).current = _
  rw [← scanPatterns_eq_find?]
  simp only [lineStep]
  cases h : scanPatterns SECTION_PATTERNS (pyLower (pyStrip line)) with
  | none => simp [h]
  | some nm => simp [h]

theorem lsScanPatterns_eq (ps : List ((String → Bool) × String)) (s : String) :
    lsScanPatterns ps s = scanPatterns ps s := by
  induction ps with
  | nil => rfl
  | cons p rest ih =>
    simp only [lsScanPatterns, scanPatterns]
    rw [ih]

theorem ls_patterns_eq : LS_SECTION_PATTERNS = SECTION_PATTERNS := rfl

theorem lsLineStep_eq (pn : Nat) (st : SecState) (l : String) :
    lsLineStep pn st l = lineStep pn st l := by
  simp only [lsLineStep, lineStep, lsScanPatterns_eq, ls_patterns_eq]

theorem mainSecPageStep_eq (st : SecState) (pn : Nat)
    (p : Option String × List PWord) :
    mainSecPageStep st pn p = lsSecPageStep st pn p.1 := by
  simp only [mainSecPageStep, lsSecPageStep]
  rw [show lsLineStep pn = lineStep pn from
    funext fun a => funext fun b => lsLineStep_eq pn a b]

theorem mainSecRun_eq (pages : List (Option String × List PWord)) :
    ∀ (st : SecState) (k : Nat),
      mainSecRun st k pages = lsSecRun st k (pages.map Prod.fst) := by
  induction pages with
  | nil => intro st k; rfl
  | cons p rest ih =>
    intro st k
    simp only [mainSecRun, List.map_cons, lsSecRun]
    rw [← mainSecPageStep_eq, ih]

/-- C4: for every PDF, main.py's `detect_sections` and local_server.py's
`detect_sections` (which additionally extracts, but never uses, the page
words) produce the same sections list — equal `name`, `start_char`,
`end_char` and `page` on every entry — and the same `section_count`. -/
theorem detect_sections_main_eq_local (pages : List (Option String × List PWord)) :
    mainDetectSections pages = lsDetectSections (pages.map Prod.fst) := by
  simp only [mainDetectSections, lsDetectSections, List.length_map]
  rw [mainSecRun_eq]

/-! ## Claim C9: shape invariants of the sections list -/

/-- Lines of all pages tagged with their 1-based page number, in processing
order. -/
def tagLines : Nat → List (Option String) → List (Nat × String)
  | _, [] => []
  | pn, p :: rest =>
    (pyLines (p.getD "")).map (fun l => (pn + 1, l)) ++ tagLines (pn + 1) rest

/-- Run the line loop over a flat list of tagged lines. -/
def runLines : SecState → List (Nat × String) → SecState
  | st, [] => st
  | st, (pn, l) :: rest => runLines (lineStep pn st l) rest

theorem runLines_append (a b : List (Nat × String)) :
    ∀ st, runLines st (a ++ b) = runLines (runLines st a) b := by
  induction a with
  | nil => intro st; rfl
  | cons x rest ih =>
    intro st
    cases x
    simp only [List.cons_append, runLines]
    exact ih _

theorem foldl_lineStep_eq_runLines (lines : List String) (pn : Nat) :
    ∀ st, lines.foldl (lineStep pn) st = runLines st (lines.map (fun l => (pn, l))) := by
  induction lines with
  | nil => intro st; rfl
  | cons l rest ih =>
    intro st
    simp only [List.foldl_cons, List.map_cons, runLines]
    exact ih _

theorem lsSecRun_eq_runLines (pages : List (Option String)) :
    ∀ (st : SecState) (pn : Nat), lsSecRun st pn pages = runLines st (tagLines pn pages) := by
  induction pages with
  | nil => intro st pn; rfl
  | cons p rest ih =>
    intro st pn
    simp only [lsSecRun, tagLines, runLines_append]
    rw [show lsSecPageStep st (pn + 1) p
        = runLines st ((pyLines (p.getD "")).map (fun l => (pn + 1, l))) from by
      simp only [lsSecPageStep]
      rw [show lsLineStep (pn + 1) = lineStep (pn + 1) from
        funext fun a => funext fun b => lsLineStep_eq (pn + 1) a b]
      exact foldl_lineStep_eq_runLines _ _ st]
    exact ih _ _

/-! ### Case characterizations of `lineStep` -/

theorem lineStep_none {pn : Nat} {st : SecState} {line : String}
    (h : scanPatterns SECTION_PATTERNS (pyLower (pyStrip line)) = none) :
    lineStep pn st line
      = ⟨st.sections, st.current, st.section_start, st.gci + line.length + 1⟩ := by
  simp [lineStep, h]

theorem lineStep_some_emit {pn : Nat} {st : SecState} {line nm : String}
    (h : scanPatterns SECTION_PATTERNS (pyLower (pyStrip line)) = some nm)
    (hc : st.current ≠ "unknown") :
    lineStep pn st line
      = ⟨st.sections ++ [⟨st.current, st.section_start, st.gci, pn⟩], nm,
          st.gci, st.gci + line.length + 1⟩ := by
  simp [lineStep, h, hc]

theorem lineStep_some_fresh {pn : Nat} {st : SecState} {line nm : String}
    (h : scanPatterns SECTION_PATTERNS (pyLower (pyStrip line)) = some nm)
    (hc : st.current = "unknown") :
    lineStep pn st line
      = ⟨st.sections, nm, st.gci, st.gci + line.length + 1⟩ := by
  simp [lineStep, h, hc]

/-! ### Section labels are never `"unknown"` -/

theorem scanPatterns_mem_labels (ps : List ((String → Bool) × String))
    (s nm : String) (h : scanPatterns ps s = some nm) : nm ∈ ps.map Prod.snd := by
  induction ps with
  | nil => cases h
  | cons p rest ih =>
    simp only [scanPatterns] at h
    by_cases hp : p.1 s
    · rw [if_pos hp] at h
      cases h
      simp
    · rw [if_neg hp] at h
      simp [ih h]

theorem section_label_ne_unknown {s nm : String}
    (h : scanPatterns SECTION_PATTERNS s = some nm) : nm ≠ "unknown" := by
  have hmem := scanPatterns_mem_labels SECTION_PATTERNS s nm h
  intro hc
  subst hc
  revert hmem
  decide

/-- Consecutive sections tile the text: the earlier one ends where the next
starts. -/
def endToStart (a b : DocSection) : Prop := a.end_char = b.start_char

/-- Shape invariant of the `detect_sections` loop state. -/
structure SecOk (st : SecState) : Prop where
  start_le : st.section_start ≤ st.gci
  chain : List.Chain' endToStart st.sections
  bounds : ∀ s ∈ st.sections, s.start_char ≤ s.end_char ∧ s.name ≠ "unknown"
  last_link : ∀ s, st.sections.getLast? = some s → s.end_char = st.section_start
  unknown_nil : st.current = "unknown" → st.sections = []

theorem lineStep_secOk {st : SecState} (pn : Nat) (line : String) (h : SecOk st) :
    SecOk (lineStep pn st line) := by
  obtain ⟨sle, ch, bnd, ll, un⟩ := h
  cases hscan : scanPatterns SECTION_PATTERNS (pyLower (pyStrip line)) with
  | none =>
    rw [lineStep_none hscan]
    exact ⟨by simp only; omega, ch, bnd, ll, un⟩
  | some nm =>
    have hnm := section_label_ne_unknown hscan
    by_cases hcur : st.current = "unknown"
    · rw [lineStep_some_fresh hscan hcur]
      have hnil := un hcur
      refine ⟨by simp only; omega, ch, bnd, ?_, ?_⟩
      · intro s hs
        rw [hnil] at hs
        cases hs
      · intro hc
        exact absurd hc hnm
    · rw [lineStep_some_emit hscan hcur]
      refine ⟨by simp only; omega, ?_, ?_, ?_, ?_⟩
      · exact chain'_append_singleton _ _ _ ch (fun a ha => ll a ha)
      · intro s hs
        rcases List.mem_append.1 hs with hs | hs
        · exact bnd s hs
        · rcases List.mem_singleton.1 hs with rfl
          exact ⟨sle, hcur⟩
      · intro s hs
        rw [List.getLast?_concat] at hs
        cases hs
        rfl
      · intro hc
        exact absurd hc hnm

theorem runLines_secOk (ls : List (Nat × String)) :
    ∀ st, SecOk st → SecOk (runLines st ls) := by
  induction ls with
  | nil => intro st h; exact h
  | cons x rest ih =>
    intro st h
    cases x with
    | mk pn l => exact ih _ (lineStep_secOk pn l h)

/-! ### Sections never start before the first matching line -/

/-- Character index of the first line (in processing order) whose stripped,
lowercased text matches a section pattern, starting from global index `g`;
when no line matches, the index after the last line. -/
def fmsPos : Nat → List (Nat × String) → Nat
  | g, [] => g
  | g, (_, l) :: rest =>
    if (scanPatterns SECTION_PATTERNS (pyLower (pyStrip l))).isSome then g
    else fmsPos (g + l.length + 1) rest

/-- Lower-bound invariant after the first pattern match: all recorded and
future section starts lie at or after `lo`. -/
structure SecLo (lo : Nat) (st : SecState) : Prop where
  cur_ne : st.current ≠ "unknown"
  lo_start : lo ≤ st.section_start
  start_le : st.section_start ≤ st.gci
  secs_lo : ∀ s ∈ st.sections, lo ≤ s.start_char

theorem lineStep_secLo {lo : Nat} {st : SecState} (pn : Nat) (line : String)
    (h : SecLo lo st) : SecLo lo (lineStep pn st line) := by
  obtain ⟨cne, los, sle, slo⟩ := h
  cases hscan : scanPatterns SECTION_PATTERNS (pyLower (pyStrip line)) with
  | none =>
    rw [lineStep_none hscan]
    exact ⟨cne, los, by simp only; omega, slo⟩
  | some nm =>
    rw [lineStep_some_emit hscan cne]
    refine ⟨section_label_ne_unknown hscan, by simp only; omega,
      by simp only; omega, ?_⟩
    intro s hs
    rcases List.mem_append.1 hs with hs | hs
    · exact slo s hs
    · rcases List.mem_singleton.1 hs with rfl
      exact los

theorem runLines_secLo {lo : Nat} (ls : List (Nat × String)) :
    ∀ st, SecLo lo st → SecLo lo (runLines st ls) := by
  induction ls with
  | nil => intro st h; exact h
  | cons x rest ih =>
    intro st h
    cases x with
    | mk pn l => exact ih _ (lineStep_secLo pn l h)

theorem runLines_unknown (ls : List (Nat × String)) :
    ∀ st : SecState, st.current = "unknown" → st.sections = [] →
      (∀ s ∈ (runLines st ls).sections, fmsPos st.gci ls ≤ s.start_char) ∧
      ((runLines st ls).current ≠ "unknown" →
        fmsPos st.gci ls ≤ (runLines st ls).section_start) := by
  induction ls with
  | nil =>
    intro st hcur hnil
    refine ⟨?_, ?_⟩
    · intro s hs
      rw [show runLines st [] = st from rfl, hnil] at hs
      cases hs
    · intro hne
      exact absurd hcur (by simpa [runLines] using hne)
  | cons x rest ih =>
    intro st hcur hnil
    cases x with
    | mk pn l =>
    cases hscan : scanPatterns SECTION_PATTERNS (pyLower (pyStrip l)) with
    | some nm =>
      have hstep := @lineStep_some_fresh pn st l nm hscan hcur
      have hlo : SecLo st.gci (lineStep pn st l) := by
        rw [hstep]
        refine ⟨section_label_ne_unknown hscan, le_refl _, by simp only; omega, ?_⟩
        intro s hs
        rw [hnil] at hs
        cases hs
      have hfin := runLines_secLo rest _ hlo
      have hfms : fmsPos st.gci ((pn, l) :: rest) = st.gci := by
        simp [fmsPos, hscan]
      rw [show runLines st ((pn, l) :: rest) = runLines (lineStep pn st l) rest from rfl,
        hfms]
      exact ⟨hfin.secs_lo, fun _ => le_trans hfin.lo_start (le_refl _)⟩
    | none =>
      have hstep := @lineStep_none pn st l hscan
      have hfms : fmsPos st.gci ((pn, l) :: rest)
          = fmsPos (st.gci + l.length + 1) rest := by
        simp [fmsPos, hscan]
      rw [show runLines st ((pn, l) :: rest) = runLines (lineStep pn st l) rest from rfl,
        hfms, hstep]
      exact ih _ hcur hnil

theorem chain'_start_le (l : List DocSection)
    (hb : ∀ s ∈ l, s.start_char ≤ s.end_char)
    (hc : List.Chain' endToStart l) :
    List.Chain' (fun a b => a.start_char ≤ b.start_char) l := by
  induction l with
  | nil => exact List.chain'_nil
  | cons a rest ih =>
    cases rest with
    | nil => exact List.chain'_singleton a
    | cons b rest2 =>
      rw [List.chain'_cons] at hc ⊢
      refine ⟨?_, ih (fun s hs => hb s (List.mem_cons_of_mem a hs)) hc.2⟩
      exact le_trans (hb a (List.mem_cons_self a _)) (le_of_eq hc.1)

theorem pairwise_start_le (l : List DocSection)
    (hc : List.Chain' (fun a b => a.start_char ≤ b.start_char) l) :
    List.Pairwise (fun a b => a.start_char ≤ b.start_char) l := by
  have : IsTrans DocSection (fun a b => a.start_char ≤ b.start_char) :=
    ⟨fun a b c h1 h2 => le_trans h1 h2⟩
  exact List.chain'_iff_pairwise.mp hc

theorem lsDetect_invariants (ps : List (Option String)) :
    (∀ s ∈ (lsDetectSections ps).1, s.start_char ≤ s.end_char ∧ s.name ≠ "unknown") ∧
    List.Chain' endToStart (lsDetectSections ps).1 ∧
    List.Pairwise (fun a b => a.start_char ≤ b.start_char) (lsDetectSections ps).1 ∧
    ∀ s ∈ (lsDetectSections ps).1, fmsPos 0 (tagLines 0 ps) ≤ s.start_char := by
  have hok0 : SecOk ⟨[], "unknown", 0, 0⟩ := by
    refine ⟨le_refl 0, List.chain'_nil, ?_, ?_, fun _ => rfl⟩
    · intro s hs; cases hs
    · intro s hs; cases hs
  have hok : SecOk (runLines ⟨[], "unknown", 0, 0⟩ (tagLines 0 ps)) :=
    runLines_secOk _ _ hok0
  have hunk := runLines_unknown (tagLines 0 ps) ⟨[], "unknown", 0, 0⟩ rfl rfl
  have hval : (lsDetectSections ps).1 =
      (if (runLines ⟨[], "unknown", 0, 0⟩ (tagLines 0 ps)).current ≠ "unknown" then
        (runLines ⟨[], "unknown", 0, 0⟩ (tagLines 0 ps)).sections ++
          [(⟨(runLines ⟨[], "unknown", 0, 0⟩ (tagLines 0 ps)).current,
              (runLines ⟨[], "unknown", 0, 0⟩ (tagLines 0 ps)).section_start,
              (runLines ⟨[], "unknown", 0, 0⟩ (tagLines 0 ps)).gci, ps.length⟩ : DocSection)]
      else (runLines ⟨[], "unknown", 0, 0⟩ (tagLines 0 ps)).sections) := by
    simp only [lsDetectSections]
    rw [lsSecRun_eq_runLines]
  set st := runLines (⟨[], "unknown", 0, 0⟩ : SecState) (tagLines 0 ps) with hst
  obtain ⟨sle, ch, bnd, ll, un⟩ := hok
  obtain ⟨hu1, hu2⟩ := hunk
  by_cases hcur : st.current = "unknown"
  · have hnil := un hcur
    rw [hval, if_neg (by simp [hcur]), hnil]
    refine ⟨?_, List.chain'_nil, List.Pairwise.nil, ?_⟩
    · intro s hs; cases hs
    · intro s hs; cases hs
  · rw [hval, if_pos hcur]
    have hbnd2 : ∀ s ∈ st.sections ++
        [(⟨st.current, st.section_start, st.gci, ps.length⟩ : DocSection)],
        s.start_char ≤ s.end_char ∧ s.name ≠ "unknown" := by
      intro s hs
      rcases List.mem_append.1 hs with hs | hs
      · exact bnd s hs
      · rcases List.mem_singleton.1 hs with rfl
        exact ⟨sle, hcur⟩
    have hch2 : List.Chain' endToStart (st.sections ++
        [(⟨st.current, st.section_start, st.gci, ps.length⟩ : DocSection)]) :=
      chain'_append_singleton _ _ _ ch (fun a ha => ll a ha)
    refine ⟨hbnd2, hch2, ?_, ?_⟩
    · exact pairwise_start_le _
        (chain'_start_le _ (fun s hs => (hbnd2 s hs).1) hch2)
    · intro s hs
      rcases List.mem_append.1 hs with hs | hs
      · exact hu1 s hs
      · rcases List.mem_singleton.1 hs with rfl
        exact hu2 hcur

/-- C9: the sections returned by main.py's `detect_sections` are contiguous
and ordered: every section has `start_char ≤ end_char` (and a real label,
never `"unknown"`), each section's `end_char` equals the next section's
`start_char`, `start_char` is non-decreasing across the list, and no section
starts before the character index of the first line matching a section
pattern — the leading unlabelled region is never emitted. -/
theorem detect_sections_contiguous (pages : List (Option String × List PWord)) :
    (∀ s ∈ (mainDetectSections pages).1, s.start_char ≤ s.end_char ∧ s.name ≠ "unknown") ∧
    List.Chain' endToStart (mainDetectSections pages).1 ∧
    List.Pairwise (fun a b => a.start_char ≤ b.start_char) (mainDetectSections pages).1 ∧
    ∀ s ∈ (mainDetectSections pages).1,
      fmsPos 0 (tagLines 0 (pages.map Prod.fst)) ≤ s.start_char := by
  have hmain : mainDetectSections pages = lsDetectSections (pages.map Prod.fst) := by
    simp only [mainDetectSections, lsDetectSections, List.length_map]
    rw [mainSecRun_eq]
  rw [hmain]
  exact lsDetect_invariants (pages.map Prod.fst)

/-- C9 witness: on a one-page document `"abstract\nB\nmethods\nC"` the two
emitted sections tile `[0,11)` and `[11,21)`, and the theorem's membership
hypotheses are discharged at the first section. -/
theorem detect_sections_contiguous_witness :
    (⟨"abstract", 0, 11, 1⟩ : DocSection) ∈
        (mainDetectSections [(some "abstract\nB\nmethods\nC", ([] : List PWord))]).1 ∧
    ((0 : Nat) ≤ 11 ∧ ("abstract" : String) ≠ "unknown") ∧
    fmsPos 0 (tagLines 0 ([(some "abstract\nB\nmethods\nC", ([] : List PWord))].map Prod.fst))
      ≤ (0 : Nat) := by
  have h := detect_sections_contiguous [(some "abstract\nB\nmethods\nC", ([] : List PWord))]
  have hm : (⟨"abstract", 0, 11, 1⟩ : DocSection) ∈
      (mainDetectSections [(some "abstract\nB\nmethods\nC", ([] : List PWord))]).1 := by decide
  exact ⟨hm, h.1 _ hm, h.2.2.2 _ hm⟩

/-! ## `extract_tables_enhanced` (main.py lines 861-990) -/

/-- The suffix `\s*\d+[\.:]\s*(.+)$` shared by the caption patterns:
optional whitespace, one or more digits, a dot or colon, then at least one
further character (`.+` also matches whitespace within a line, so
`\s*(.+)$` only requires a non-empty remainder). -/
def capTail (cs : List Char) : Bool :=
  match wsDrop cs with
  | c :: rest =>
    if c.isDigit then
      match rest.dropWhile Char.isDigit with
      | d :: rest2 => (d == '.' || d == ':') && !rest2.isEmpty
      | [] => false
    else false
  | [] => false

/-- `^Table\s*\d+[\.:]\s*(.+)$`, `^Tab\s*\d+[\.:]\s*(.+)$` and
`^TABLE\s*\d+[\.:]\s*(.+)$` under `re.IGNORECASE` (main.py lines 896-900;
patterns 1 and 3 coincide case-insensitively). -/
def tableCaptionMatch (s : String) : Bool :=
  (match chopCI "table".data s.data with
   | some rest => capTail rest
   | none => false) ||
  (match chopCI "tab".data s.data with
   | some rest => capTail rest
   | none => false)

/-- The caption-detection loop (main.py lines 908-915): the stripped text of
each line matching a table-caption pattern, in line order. -/
def pageTableCaptions (lines : List String) : List String :=
  lines.foldl (fun acc line =>
    if tableCaptionMatch (pyStrip line) then acc ++ [pyStrip line] else acc) []

/-- Cell cleaning (main.py lines 939-948): `None` and `""` become `""`,
other cells get whitespace runs collapsed by `' '.join(str(cell).split())`. -/
def cleanCell (c : Option String) : String :=
  match c with
  | none => ""
  | some s => if s == "" then "" else pyNormSpace s

/-- Clean every row of a raw table. -/
def cleanTable (t : List (List (Option String))) : List (List String) :=
  t.map (fun row => row.map cleanCell)

/-- Header detection (main.py lines 950-958): the first row with any
non-blank cell becomes `headers`; later non-blank rows become `data_rows`;
fully blank rows are skipped. -/
def splitHeader (rows : List (List String)) : List String × List (List String) :=
  rows.foldl (fun acc row =>
    if row.any (fun cell => pyStrip cell != "") then
      if acc.1.isEmpty then (row, acc.2) else (acc.1, acc.2 ++ [row])
    else acc) ([], [])

/-- One element of the returned `tables` array. -/
structure TableOut where
  page : Nat
  table_index : Nat
  caption : String
  headers : List String
  rows : List (List String)
  raw : List (List String)
  column_count : Nat
  row_count : Nat
deriving DecidableEq, Repr

/-- The `for j, table in enumerate(page_tables)` loop (main.py lines
935-974).  `j` counts every raw extracted table, including empty ones that
are skipped by `if table and len(table) > 0`; the caption is
`captions[j]` when `j < len(captions)`, else `""`. -/
def tablesLoop (page_num : Nat) (captions : List String) :
    Nat → List (List (List (Option String))) → List TableOut
  | _, [] => []
  | j, t :: ts =>
    (if t.isEmpty then [] else
      let cleaned := cleanTable t
      let hd := splitHeader cleaned
      let cap := if j < captions.length then captions.getD j "" else ""
      [⟨page_num + 1, j, cap, hd.1, hd.2, cleaned,
        (if hd.1.isEmpty then 0 else hd.1.length), cleaned.length⟩])
    ++ tablesLoop page_num captions (j + 1) ts

/-- One page of `extract_tables_enhanced` (0-based `page_num` from
`enumerate(pdf.pages)`): find this page's captions when `detect_captions`
is set, then process the page's raw tables.  The two pdfplumber extraction
strategies (line-based, then text-based when the first finds nothing) are
library behaviour; `page_tables` is the resulting list. -/
def extractTablesEnhancedPage (detect_captions : Bool) (page_num : Nat)
    (ptext : Option String)
    (page_tables : List (List (List (Option String)))) : List TableOut :=
  let page_lines := pyLines (ptext.getD "")
  let captions := if detect_captions then pageTableCaptions page_lines else []
  tablesLoop page_num captions 0 page_tables

/-- The whole page loop of `extract_tables_enhanced`. -/
def tablesPagesRun (detect_captions : Bool) :
    Nat → List (Option String × List (List (List (Option String)))) → List TableOut
  | _, [] => []
  | pn, p :: rest =>
    extractTablesEnhancedPage detect_captions pn p.1 p.2
      ++ tablesPagesRun detect_captions (pn + 1) rest

/-- `extract_tables_enhanced`: the returned `tables` array. -/
def extractTablesEnhancedCore (detect_captions : Bool)
    (pages : List (Option String × List (List (List (Option String))))) :
    List TableOut :=
  tablesPagesRun detect_captions 0 pages

/-! ## `extract_figures_enhanced` (main.py lines 999-1124) -/

/-- An image reference on a page as seen by the function: the pixel
dimensions PIL reports, whether `doc.extract_image`/PIL succeed (`ok`
models the `try/except` around each image), and the reported format. -/
structure ImgIn where
  iwidth : Nat
  iheight : Nat
  ok : Bool
  ext : String
deriving DecidableEq, Repr

/-- One element of the returned `figures` array (the base64 payload and the
bbox lookup are imaging-library output and are not modelled). -/
structure FigOut where
  page : Nat
  figure_index : Nat
  caption : String
  fwidth : Nat
  fheight : Nat
  fext : String
deriving DecidableEq, Repr

/-- `^Figure\s*\d+[\.:]\s*(.+)`, `^Fig\s*\.?\s*\d+[\.:]\s*(.+)` and
`^FIGURE\s*\d+[\.:]\s*(.+)` under `re.IGNORECASE` (main.py lines
1036-1040). -/
def figureCaptionMatch (s : String) : Bool :=
  (match chopCI "figure".data s.data with
   | some rest => capTail rest
   | none => false) ||
  (match chopCI "fig".data s.data with
   | some rest =>
     let r1 := wsDrop rest
     let r2 := match r1 with
       | '.' :: r => wsDrop r
       | _ => r1
     capTail r2
   | none => false)

/-- The figure-caption loop (main.py lines 1049-1055). -/
def pageFigureCaptions (lines : List String) : List String :=
  lines.foldl (fun acc line =>
    if figureCaptionMatch (pyStrip line) then acc ++ [pyStrip line] else acc) []

/-- The `for img_idx, img in enumerate(image_list)` loop (main.py lines
1060-1106): failing images (`except: continue`) and images smaller than
`min_size` in either dimension are skipped but still consume `img_idx`;
the caption is `captions[img_idx]` when in range, else `""`. -/
def figuresLoop (page_num : Nat) (min_size : Nat) (captions : List String) :
    Nat → List ImgIn → List FigOut
  | _, [] => []
  | idx, img :: rest =>
    (if img.ok then
      if img.iwidth < min_size || img.iheight < min_size then []
      else
        [⟨page_num + 1, idx,
          (if idx < captions.length then captions.getD idx "" else ""),
          img.iwidth, img.iheight, img.ext⟩]
     else []) ++ figuresLoop page_num min_size captions (idx + 1) rest

/-- One page of `extract_figures_enhanced` (0-based `page_num` over
`range(len(doc))`; `ptext` is `page.get_text()`). -/
def extractFiguresEnhancedPage (min_size : Nat) (page_num : Nat)
    (ptext : String) (images : List ImgIn) : List FigOut :=
  let captions := pageFigureCaptions (pyLines ptext)
  figuresLoop page_num min_size captions 0 images

/-- The whole page loop of `extract_figures_enhanced`. -/
def figuresPagesRun (min_size : Nat) :
    Nat → List (String × List ImgIn) → List FigOut
  | _, [] => []
  | pn, p :: rest =>
    extractFiguresEnhancedPage min_size pn p.1 p.2
      ++ figuresPagesRun min_size (pn + 1) rest

/-- `extract_figures_enhanced`: the returned `figures` array. -/
def extractFiguresEnhancedCore (min_size : Nat)
    (pages : List (String × List ImgIn)) : List FigOut :=
  figuresPagesRun min_size 0 pages

/-! ## Claim C1 -/

/-- C1 counterexample: captions are indexed by the raw extraction index, not
the output position.  On a page with captions `"Table 1: A"`, `"Table 2: B"`
whose first raw table is empty (skipped), the table at output position `0`
carries `captions[1] = "Table 2: B"`, not `captions[0]`; likewise, on a page
with captions `"Figure 1: A"`, `"Figure 2: B"` whose first image is smaller
than `min_size` (skipped), the figure at output position `0` carries
`captions[1] = "Figure 2: B"`. -/
theorem caption_pairing_counterexample :
    ((extractTablesEnhancedPage true 0 (some "Table 1: A\nTable 2: B")
        [[], [[some "x"]]]).map (fun e => (e.table_index, e.caption))
      = [(1, "Table 2: B")] ∧
     pageTableCaptions (pyLines "Table 1: A\nTable 2: B")
      = ["Table 1: A", "Table 2: B"]) ∧
    ((extractFiguresEnhancedPage 50 0 "Figure 1: A\nFigure 2: B"
        [⟨10, 10, true, "png"⟩, ⟨60, 60, true, "png"⟩]).map
          (fun f => (f.figure_index, f.caption))
      = [(1, "Figure 2: B")] ∧
     pageFigureCaptions (pyLines "Figure 1: A\nFigure 2: B")
      = ["Figure 1: A", "Figure 2: B"]) ∧
    ("Table 2: B" : String) ≠ "Table 1: A" ∧
    ("Figure 2: B" : String) ≠ "Figure 1: A" := by
  refine ⟨⟨by decide, by decide⟩, ⟨by decide, by decide⟩, by decide, by decide⟩

theorem tablesLoop_caption (pn : Nat) (captions : List String)
    (ts : List (List (List (Option String)))) :
    ∀ (j : Nat), ∀ e ∈ tablesLoop pn captions j ts,
      e.caption = captions.getD e.table_index "" := by
  induction ts with
  | nil => intro j e he; cases he
  | cons t rest ih =>
    intro j e he
    simp only [tablesLoop] at he
    rcases List.mem_append.1 he with he | he
    · by_cases ht : t.isEmpty
      · rw [if_pos ht] at he
        cases he
      · rw [if_neg ht] at he
        rcases List.mem_singleton.1 he with rfl
        simp only
        by_cases hj : j < captions.length
        · rw [if_pos hj]
        · rw [if_neg hj]
          rw [List.getD_eq_default]
          omega
    · exact ih (j + 1) e he

theorem figuresLoop_caption (pn ms : Nat) (captions : List String)
    (imgs : List ImgIn) :
    ∀ (idx : Nat), ∀ f ∈ figuresLoop pn ms captions idx imgs,
      f.caption = captions.getD f.figure_index "" := by
  induction imgs with
  | nil => intro idx f hf; cases hf
  | cons img rest ih =>
    intro idx f hf
    simp only [figuresLoop] at hf
    rcases List.mem_append.1 hf with hf | hf
    · by_cases hok : img.ok
      · rw [if_pos hok] at hf
        by_cases hsmall : img.iwidth < ms || img.iheight < ms
        · rw [if_pos hsmall] at hf
          cases hf
        · rw [if_neg hsmall] at hf
          rcases List.mem_singleton.1 hf with rfl
          simp only
          by_cases hj : idx < captions.length
          · rw [if_pos hj]
          · rw [if_neg hj]
            rw [List.getD_eq_default]
            omega
      · rw [if_neg hok] at hf
        cases hf
    · exact ih (idx + 1) f hf

/-- C1 (amended): the caption attached to an extracted table or figure is
the page's detected-captions list indexed by the item's raw extraction index
(`table_index` / `figure_index` from `enumerate`, which also counts skipped
empty tables and skipped too-small or failing images) — the empty string
when that index is out of range — rather than by the item's output position;
the two coincide only when nothing earlier on the page was skipped.  No
spatial or semantic association is used. -/
theorem caption_pairing_by_raw_index (dc : Bool) (pn : Nat)
    (ptext : Option String) (tables : List (List (List (Option String))))
    (ms : Nat) (ftext : String) (imgs : List ImgIn) :
    (∀ e ∈ extractTablesEnhancedPage dc pn ptext tables,
      e.caption = ((if dc then pageTableCaptions (pyLines (ptext.getD "")) else
        []).getD e.table_index "")) ∧
    (∀ f ∈ extractFiguresEnhancedPage ms pn ftext imgs,
      f.caption = (pageFigureCaptions (pyLines ftext)).getD f.figure_index "") := by
  constructor
  · intro e he
    exact tablesLoop_caption pn _ tables 0 e he
  · intro f hf
    exact figuresLoop_caption pn ms _ imgs 0 f hf

/-- C1 (amended) witness at the counterexample inputs: the surviving table
and figure each carry the caption at their raw index `1`. -/
theorem caption_pairing_by_raw_index_witness :
    ((⟨1, 1, "Table 2: B", ["x"], [], [["x"]], 1, 1⟩ : TableOut) ∈
        extractTablesEnhancedPage true 0 (some "Table 1: A\nTable 2: B")
          [[], [[some "x"]]] ∧
      ("Table 2: B" : String) =
        ((if true then
            pageTableCaptions (pyLines ((some "Table 1: A\nTable 2: B").getD ""))
          else []).getD 1 "")) ∧
    ((⟨1, 1, "Figure 2: B", 60, 60, "png"⟩ : FigOut) ∈
        extractFiguresEnhancedPage 50 0 "Figure 1: A\nFigure 2: B"
          [⟨10, 10, true, "png"⟩, ⟨60, 60, true, "png"⟩] ∧
      ("Figure 2: B" : String) =
        (pageFigureCaptions (pyLines "Figure 1: A\nFigure 2: B")).getD 1 "") := by
  have h := caption_pairing_by_raw_index true 0 (some "Table 1: A\nTable 2: B")
    [[], [[some "x"]]] 50 "Figure 1: A\nFigure 2: B"
    [⟨10, 10, true, "png"⟩, ⟨60, 60, true, "png"⟩]
  have hmt : (⟨1, 1, "Table 2: B", ["x"], [], [["x"]], 1, 1⟩ : TableOut) ∈
      extractTablesEnhancedPage true 0 (some "Table 1: A\nTable 2: B")
        [[], [[some "x"]]] := by decide
  have hmf : (⟨1, 1, "Figure 2: B", 60, 60, "png"⟩ : FigOut) ∈
      extractFiguresEnhancedPage 50 0 "Figure 1: A\nFigure 2: B"
        [⟨10, 10, true, "png"⟩, ⟨60, 60, true, "png"⟩] := by decide
  exact ⟨⟨hmt, h.1 _ hmt⟩, ⟨hmf, h.2 _ hmf⟩⟩

/-! ## `generate_html_report` (main.py lines 570-852)

The HTML template of the report, split at its interpolation holes (in
order: title, title, timestamp, extraction rows, screenshot count, evidence
cards).  Literal braces and apostrophes of the CSS are written with
hexadecimal escapes. -/

def htmlT1 : String :=
  "<!DOCTYPE html>\n"
  ++ "<html lang=\"en\">\n"
  ++ "<head>\n"
  ++ "    <meta charset=\"UTF-8\">\n"
  ++ "    <meta name=\"viewport\" content=\"width=device-width, initial-scale=1.0\">\n"
  ++ "    <title>"

def htmlT2 : String :=
  "</title>\n"
  ++ "    <style>\n"
  ++ "        * \x7b margin: 0; padding: 0; box-sizing: border-box; \x7d\n"
  ++ "        body \x7b\n"
  ++ "            font-family: -apple-system, BlinkMacSystemFont, \x27Segoe UI\x27, Roboto, sans-serif;\n"
  ++ "            line-height: 1.6;\n"
  ++ "            color: #333;\n"
  ++ "            max-width: 1200px;\n"
  ++ "            margin: 0 auto;\n"
  ++ "            padding: 20px;\n"
  ++ "            background: #f5f5f5;\n"
  ++ "        \x7d\n"
  ++ "        header \x7b\n"
  ++ "            background: linear-gradient(135deg, #667eea 0%, #764ba2 100%);\n"
  ++ "            color: white;\n"
  ++ "            padding: 30px;\n"
  ++ "            border-radius: 10px;\n"
  ++ "            margin-bottom: 30px;\n"
  ++ "        \x7d\n"
  ++ "        h1 \x7b font-size: 2rem; margin-bottom: 10px; \x7d\n"
  ++ "        .timestamp \x7b opacity: 0.8; font-size: 0.9rem; \x7d\n"
  ++ "        h2 \x7b\n"
  ++ "            color: #667eea;\n"
  ++ "            border-bottom: 2px solid #667eea;\n"
  ++ "            padding-bottom: 10px;\n"
  ++ "            margin: 30px 0 20px;\n"
  ++ "        \x7d\n"
  ++ "        .extraction-table \x7b\n"
  ++ "            width: 100%;\n"
  ++ "            border-collapse: collapse;\n"
  ++ "            background: white;\n"
  ++ "            border-radius: 8px;\n"
  ++ "            overflow: hidden;\n"
  ++ "            box-shadow: 0 2px 10px rgba(0,0,0,0.1);\n"
  ++ "        \x7d\n"
  ++ "        .extraction-table th, .extraction-table td \x7b\n"
  ++ "            padding: 12px 15px;\n"
  ++ "            text-align: left;\n"
  ++ "            border-bottom: 1px solid #eee;\n"
  ++ "        \x7d\n"
  ++ "        .extraction-table th \x7b\n"
  ++ "            background: #667eea;\n"
  ++ "            color: white;\n"
  ++ "        \x7d\n"
  ++ "        .source-cell \x7b\n"
  ++ "            font-size: 0.85rem;\n"
  ++ "            color: #666;\n"
  ++ "            font-style: italic;\n"
  ++ "            max-width: 300px;\n"
  ++ "        \x7d\n"
  ++ "        .evidence-section \x7b\n"
  ++ "            display: grid;\n"
  ++ "            grid-template-columns: repeat(auto-fill, minmax(350px, 1fr));\n"
  ++ "            gap: 20px;\n"
  ++ "            margin-top: 20px;\n"
  ++ "        \x7d\n"
  ++ "        .evidence-card \x7b\n"
  ++ "            background: white;\n"
  ++ "            border-radius: 8px;\n"
  ++ "            padding: 20px;\n"
  ++ "            box-shadow: 0 2px 10px rgba(0,0,0,0.1);\n"
  ++ "        \x7d\n"
  ++ "        .evidence-card h3 \x7b\n"
  ++ "            color: #667eea;\n"
  ++ "            margin-bottom: 10px;\n"
  ++ "        \x7d\n"
  ++ "        .evidence-card img \x7b\n"
  ++ "            max-width: 100%;\n"
  ++ "            border: 1px solid #ddd;\n"
  ++ "            border-radius: 4px;\n"
  ++ "            margin-top: 10px;\n"
  ++ "        \x7d\n"
  ++ "        .source-text \x7b\n"
  ++ "            background: #fff9c4;\n"
  ++ "            padding: 10px;\n"
  ++ "            border-radius: 4px;\n"
  ++ "            font-style: italic;\n"
  ++ "            margin-bottom: 5px;\n"
  ++ "        \x7d\n"
  ++ "        .page-ref \x7b\n"
  ++ "            color: #888;\n"
  ++ "            font-size: 0.85rem;\n"
  ++ "        \x7d\n"
  ++ "        footer \x7b\n"
  ++ "            text-align: center;\n"
  ++ "            padding: 20px;\n"
  ++ "            color: #888;\n"
  ++ "            font-size: 0.85rem;\n"
  ++ "        \x7d\n"
  ++ "    </style>\n"
  ++ "</head>\n"
  ++ "<body>\n"
  ++ "    <header>\n"
  ++ "        <h1>"

def htmlT3 : String :=
  "</h1>\n"
  ++ "        <p class=\"timestamp\">Generated: "

def htmlT4 : String :=
  "</p>\n"
  ++ "    </header>\n"
  ++ "\n"
  ++ "    <section>\n"
  ++ "        <h2>Extracted Data</h2>\n"
  ++ "        <table class=\"extraction-table\">\n"
  ++ "            <thead>\n"
  ++ "                <tr>\n"
  ++ "                    <th>Field</th>\n"
  ++ "                    <th>Value</th>\n"
  ++ "                    <th>Source Text</th>\n"
  ++ "                </tr>\n"
  ++ "            </thead>\n"
  ++ "            <tbody>\n"
  ++ "                "

def htmlT5 : String :=
  "\n"
  ++ "            </tbody>\n"
  ++ "        </table>\n"
  ++ "    </section>\n"
  ++ "\n"
  ++ "    <section>\n"
  ++ "        <h2>Visual Evidence ("

def htmlT6 : String :=
  " screenshots)</h2>\n"
  ++ "        <div class=\"evidence-section\">\n"
  ++ "            "

def htmlT7 : String :=
  "\n"
  ++ "        </div>\n"
  ++ "    </section>\n"
  ++ "\n"
  ++ "    <footer>\n"
  ++ "        <p>Cerebellar SDC Extraction System | Report generated automatically</p>\n"
  ++ "    </footer>\n"
  ++ "</body>\n"
  ++ "</html>"

def cardT1 : String :=
  "\n"
  ++ "            <div class=\"evidence-card\">\n"
  ++ "                <h3>"

def cardT2 : String :=
  "</h3>\n"
  ++ "                <p class=\"source-text\">\""

def cardT3 : String :=
  "\"</p>\n"
  ++ "                <p class=\"page-ref\">Page "

def cardT4 : String :=
  "</p>\n"
  ++ "                <img src=\"data:image/png;base64,"

def cardT5 : String :=
  "\" alt=\""

def cardT6 : String :=
  "\" />\n"
  ++ "            </div>\n"
  ++ "            "

def rowValueT1 : String :=
  "\n"
  ++ "                    <tr>\n"
  ++ "                        <td><strong>"

def rowValueT2 : String :=
  "</strong></td>\n"
  ++ "                        <td>"

def rowValueT3 : String :=
  "</td>\n"
  ++ "                        <td class=\"source-cell\">"

def rowValueT4 : String :=
  "</td>\n"
  ++ "                    </tr>\n"
  ++ "                    "

def rowPlainT1 : String :=
  "\n"
  ++ "                <tr>\n"
  ++ "                    <td><strong>"

def rowPlainT2 : String :=
  "</strong></td>\n"
  ++ "                    <td colspan=\"2\">"

def rowPlainT3 : String :=
  "</td>\n"
  ++ "                </tr>\n"
  ++ "                "

/-- A JSON-like Python value inside `extraction_data`: a scalar (rendered as
its string form) or a dict. -/
inductive PyVal where
  | s (v : String)
  | d (fields : List (String × PyVal))

/-- Python `dict.get(key)` over the association-list model. -/
def lookupKey : List (String × PyVal) → String → Option PyVal
  | [], _ => none
  | (k, v) :: rest, key => if k == key then some v else lookupKey rest key

mutual

/-- Python `str()` of a modelled value, as interpolated by an f-string:
string leaves render as themselves, dicts as their repr. -/
def pyStr : PyVal → String
  | .s v => v
  | .d fields => "\x7b" ++ pyReprFields fields ++ "\x7d"

/-- Python `repr()` of a modelled value (string escaping inside the repr is
not modelled beyond quoting). -/
def pyRepr : PyVal → String
  | .s v => "\x27" ++ v ++ "\x27"
  | .d fields => "\x7b" ++ pyReprFields fields ++ "\x7d"

/-- The comma-separated items of a dict repr. -/
def pyReprFields : List (String × PyVal) → String
  | [] => ""
  | [(k, v)] => "\x27" ++ k ++ "\x27: " ++ pyRepr v
  | (k, v) :: rest => "\x27" ++ k ++ "\x27: " ++ pyRepr v ++ ", " ++ pyReprFields rest

end

mutual

/-- `render_field` (main.py lines 676-698): a dict with a `value` key
renders as one three-column row (value and `sourceText`, both defaulting to
`N/A`); any other dict recurses over its items with dotted names; a scalar
renders as a two-column row. -/
def renderField (name : String) : PyVal → String
  | .s v => rowPlainT1 ++ name ++ rowPlainT2 ++ v ++ rowPlainT3
  | .d fields =>
    if (lookupKey fields "value").isSome then
      rowValueT1 ++ name ++ rowValueT2
        ++ pyStr ((lookupKey fields "value").getD (.s "N/A"))
        ++ rowValueT3
        ++ pyStr ((lookupKey fields "sourceText").getD (.s "N/A"))
        ++ rowValueT4
    else renderFields name fields

/-- The `for k, v in field.items()` accumulation inside `render_field`. -/
def renderFields (name : String) : List (String × PyVal) → String
  | [] => ""
  | (k, v) :: rest => renderField (name ++ "." ++ k) v ++ renderFields name rest

end

/-- The `extraction_rows` accumulation (main.py lines 700-704): non-dict
section values are skipped. -/
def extractionRows (extraction_data : List (String × PyVal)) : String :=
  extraction_data.foldl (fun acc sp =>
    match sp.2 with
    | .d fields => acc ++ renderFields sp.1 fields
    | .s _ => acc) ""

/-- One screenshot record as consumed by the evidence-card loop: the
highlight's label, text and page plus the base64 PNG produced by the
rendering stage. -/
structure ShotData where
  slabel : String
  stext : String
  image_base64 : String
  page : Int
deriving DecidableEq, Repr

/-- The `evidence_html` accumulation (main.py lines 664-673). -/
def evidenceHtml (shots : List ShotData) : String :=
  shots.foldl (fun acc shot =>
    acc ++ (cardT1 ++ shot.slabel ++ cardT2 ++ shot.stext ++ cardT3
      ++ toString shot.page ++ cardT4 ++ shot.image_base64 ++ cardT5
      ++ shot.slabel ++ cardT6)) ""

/-- The request-determined inputs of the templating stage of
`generate_html_report`: `extraction_data`, `title`, and the screenshot
records produced from (`pdf_base64`, `highlights`, `dpi`, `padding`) by the
deterministic fitz/PIL rendering stage, which is abstracted here. -/
structure ReportReq where
  extraction_data : List (String × PyVal)
  title : String
  shots : List ShotData

/-- `generate_html_report` (main.py lines 660-835): the returned `html`
string.  `timestamp` is `datetime.now().isoformat()` — the current time at
the moment of the request, not part of the request body. -/
def generateHtmlReportCore (req : ReportReq) (timestamp : String) : String :=
  htmlT1 ++ req.title ++ htmlT2 ++ req.title ++ htmlT3 ++ timestamp
    ++ htmlT4 ++ extractionRows req.extraction_data
    ++ htmlT5 ++ toString req.shots.length
    ++ htmlT6 ++ evidenceHtml req.shots ++ htmlT7

/-! ## Claim C5 -/

theorem str_append_cancel_left (a b c : String) (h : a ++ b = a ++ c) : b = c := by
  have hd : a.data ++ b.data = a.data ++ c.data := by
    rw [← String.data_append, ← String.data_append, h]
  apply String.ext
  exact List.append_cancel_left hd

theorem str_append_cancel_right (a b c : String) (h : a ++ c = b ++ c) : a = b := by
  have hd : a.data ++ c.data = b.data ++ c.data := by
    rw [← String.data_append, ← String.data_append, h]
  apply String.ext
  exact List.append_cancel_right hd

/-- Everything of the report before the timestamp hole; depends only on the
request. -/
def htmlPre (req : ReportReq) : String :=
  htmlT1 ++ req.title ++ htmlT2 ++ req.title ++ htmlT3

/-- Everything of the report after the timestamp hole; depends only on the
request. -/
def htmlSuf (req : ReportReq) : String :=
  htmlT4 ++ extractionRows req.extraction_data ++ htmlT5
    ++ toString req.shots.length ++ htmlT6 ++ evidenceHtml req.shots ++ htmlT7

theorem generateHtml_decomp (req : ReportReq) (t : String) :
    generateHtmlReportCore req t = htmlPre req ++ (t ++ htmlSuf req) := by
  apply String.ext
  simp only [generateHtmlReportCore, htmlPre, htmlSuf, String.data_append,
    List.append_assoc]

/-- C5 counterexample: `generate_html_report` embeds
`datetime.now().isoformat()` in the `Generated:` line, so two runs of the
very same fixed request at different clock readings produce different HTML
strings — the output does not depend only on the request inputs. -/
theorem generate_html_report_time_dependent :
    generateHtmlReportCore ⟨[], "T", []⟩ "2024-01-01T00:00:00"
      ≠ generateHtmlReportCore ⟨[], "T", []⟩ "2024-01-02T00:00:00" := by
  intro h
  rw [generateHtml_decomp, generateHtml_decomp] at h
  have h2 := str_append_cancel_right _ _ _ (str_append_cancel_left _ _ _ h)
  exact absurd h2 (by decide)

/-- C5 (amended): `generate_html_report` is a string-templating function of
the request **and the current time**: for a fixed request the produced HTML
agrees between two runs exactly when the embedded `datetime.now()`
timestamps agree — equal timestamps reproduce the same HTML, distinct
timestamps give distinct HTML. -/
theorem generate_html_report_deterministic (req : ReportReq) (t1 t2 : String) :
    generateHtmlReportCore req t1 = generateHtmlReportCore req t2 ↔ t1 = t2 := by
  constructor
  · intro h
    rw [generateHtml_decomp, generateHtml_decomp] at h
    exact str_append_cancel_right _ _ _ (str_append_cancel_left _ _ _ h)
  · intro h
    rw [h]

/-- C5 (amended) witness: the equivalence applied at a concrete request and
timestamp. -/
theorem generate_html_report_deterministic_witness :
    generateHtmlReportCore ⟨[], "T", []⟩ "2024-01-01T00:00:00"
      = generateHtmlReportCore ⟨[], "T", []⟩ "2024-01-01T00:00:00" :=
  (generate_html_report_deterministic ⟨[], "T", []⟩
    "2024-01-01T00:00:00" "2024-01-01T00:00:00").mpr rfl

/-! ## `extract_tables` (main.py lines 128-180) -/

/-- One element of plain `extract_tables`' result. -/
structure SimpleTableOut where
  page : Nat
  table_index : Nat
  headers : List String
  rows : List (List String)
  raw : List (List String)
deriving DecidableEq, Repr

/-- Cell cleaning of plain `extract_tables` (main.py lines 153-157): falsy
cells (`None` or `""`) become `""`, others are kept as-is. -/
def cleanCellSimple (c : Option String) : String :=
  match c with
  | none => ""
  | some s => if s == "" then "" else s

/-- The `for j, table in enumerate(page_tables)` loop of plain
`extract_tables` (main.py lines 151-164): falsy (empty) tables are skipped,
`headers` is the first cleaned row, `rows` the remaining rows. -/
def tablesSimpleLoop (page_num : Nat) :
    Nat → List (List (List (Option String))) → List SimpleTableOut
  | _, [] => []
  | j, t :: ts =>
    (if t.isEmpty then [] else
      let cleaned := t.map (fun row => row.map cleanCellSimple)
      [⟨page_num + 1, j, cleaned.headD [],
        (if 1 < cleaned.length then cleaned.tail else []), cleaned⟩])
    ++ tablesSimpleLoop page_num (j + 1) ts

/-- The page loop of plain `extract_tables`. -/
def tablesSimplePagesRun : Nat → List (List (List (List (Option String)))) →
    List SimpleTableOut
  | _, [] => []
  | pn, p :: rest => tablesSimpleLoop pn 0 p ++ tablesSimplePagesRun (pn + 1) rest

/-- `extract_tables`: the returned `tables` array. -/
def extractTablesCore (pages : List (List (List (List (Option String))))) :
    List SimpleTableOut :=
  tablesSimplePagesRun 0 pages

/-! ## `extract_figures` (main.py lines 363-420) -/

/-- An image dict on a pdfplumber page: the coordinates and dimensions the
function reads (the cropped rendering and its base64 payload are imaging
output, not modelled). -/
structure ImgMeta where
  x0 : Int
  top : Int
  x1 : Int
  bottom : Int
  iwidth : Int
  iheight : Int
deriving DecidableEq, Repr

/-- One element of plain `extract_figures`' result. -/
structure SimpleFigOut where
  page : Nat
  bbox : Int × Int × Int × Int
  fwidth : Int
  fheight : Int
deriving DecidableEq, Repr

/-- The page/image loops of plain `extract_figures` (main.py lines 383-404):
every image of every page yields one figure record, no skipping. -/
def figuresSimpleRun : Nat → List (List ImgMeta) → List SimpleFigOut
  | _, [] => []
  | pn, imgs :: rest =>
    imgs.map (fun im => ⟨pn + 1, (im.x0, im.top, im.x1, im.bottom),
      im.iwidth, im.iheight⟩)
      ++ figuresSimpleRun (pn + 1) rest

/-- `extract_figures`: the returned `figures` array. -/
def extractFiguresCore (pages : List (List ImgMeta)) : List SimpleFigOut :=
  figuresSimpleRun 0 pages

/-! ## `capture_highlights` (main.py lines 429-561) -/

/-- One highlight of the request: the fields the function reads via
`.get` (all optional), coordinates included even though the pixel math they
feed is imaging output. -/
structure Highlight where
  page : Option Int
  hlabel : Option String
  htext : Option String
  x0 : Option Int
  y0 : Option Int
  x1 : Option Int
  y1 : Option Int
deriving DecidableEq, Repr

/-- One screenshot record of the response (its base64 image and pixel
dimensions come from the rendering stage and are not modelled). -/
structure Screenshot where
  page : Int
  slabel : String
  stext : String
deriving DecidableEq, Repr

/-- The highlight loop of `capture_highlights` (main.py lines 489-543):
`page_num = highlight.get('page', 1) - 1`; when `page_num < 0` or
`page_num >= len(doc)` the highlight is skipped (`continue`), otherwise it
produces exactly one screenshot record, in input order. -/
def captureLoop (ndoc : Nat) : List Highlight → List Screenshot
  | [] => []
  | h :: rest =>
    let page_num : Int := h.page.getD 1 - 1
    if page_num < 0 ∨ (ndoc : Int) ≤ page_num then captureLoop ndoc rest
    else ⟨h.page.getD 1, h.hlabel.getD "", h.htext.getD ""⟩ :: captureLoop ndoc rest

/-! ## The HTTP wrappers (claim C8)

Every function in main.py has the same shape: inside a `try`, read the JSON
body (`req.get_json()`, modelled as `none` when it yields no data), return
status 400 with `{"error": "pdf_base64 required"}` when
`not data or 'pdf_base64' not in data`, otherwise run the fallible
processing pipeline — base64 decoding, PDF parsing, extraction, rendering —
whose outcome is modelled as an `Except` (`error` = some exception was
raised, which the `except` clause turns into status 500 with
`{"error": str(e)}`), and on success return status 200 with the payload the
source serializes together with `"success": true`. -/

/-- An HTTP response: status code, and either the error object or the
success payload. -/
structure HResp (α : Type) where
  status : Nat
  body : Except String α

/-- The guard `if not data or 'pdf_base64' not in data`: the body is
missing (`data` is `None`) or lacks the key (a falsy empty dict also lacks
it). -/
def noPdfKey : Option (List String) → Prop
  | none => True
  | some keys => "pdf_base64" ∉ keys

/-- HTTP wrapper of `extract_text_with_layout` (main.py lines 60-119).
`multipartFile` is `req.files.get('file')` on the multipart branch (`none`
outer = JSON branch); a missing file gives its own 400. -/
def handleExtractTextWithLayout (multipartFile : Option (Option Unit))
    (body : Option (List String))
    (parsed : Except String (List LayoutPageIn)) : HResp LayoutResult :=
  match multipartFile with
  | some none => ⟨400, .error "No file provided"⟩
  | some (some _) =>
    match parsed with
    | .error e => ⟨500, .error e⟩
    | .ok pages => ⟨200, .ok (extractTextWithLayoutCore pages)⟩
  | none =>
    match body with
    | none => ⟨400, .error "pdf_base64 required"⟩
    | some keys =>
      if keys = [] ∨ "pdf_base64" ∉ keys then ⟨400, .error "pdf_base64 required"⟩
      else
        match parsed with
        | .error e => ⟨500, .error e⟩
        | .ok pages => ⟨200, .ok (extractTextWithLayoutCore pages)⟩

/-- HTTP wrapper of `extract_tables` (main.py lines 128-180). -/
def handleExtractTables (body : Option (List String))
    (parsed : Except String (List (List (List (List (Option String)))))) :
    HResp (List SimpleTableOut × Nat) :=
  match body with
  | none => ⟨400, .error "pdf_base64 required"⟩
  | some keys =>
    if keys = [] ∨ "pdf_base64" ∉ keys then ⟨400, .error "pdf_base64 required"⟩
    else
      match parsed with
      | .error e => ⟨500, .error e⟩
      | .ok pages =>
        ⟨200, .ok (extractTablesCore pages, (extractTablesCore pages).length)⟩

/-- HTTP wrapper of `extract_text_with_positions` (main.py lines 189-258). -/
def handleExtractTextWithPositions (body : Option (List String))
    (parsed : Except String (List (List PWord))) :
    HResp (List PosEntry × String) :=
  match body with
  | none => ⟨400, .error "pdf_base64 required"⟩
  | some keys =>
    if keys = [] ∨ "pdf_base64" ∉ keys then ⟨400, .error "pdf_base64 required"⟩
    else
      match parsed with
      | .error e => ⟨500, .error e⟩
      | .ok pages => ⟨200, .ok (extractTextWithPositionsCore pages)⟩

/-- HTTP wrapper of `detect_sections` (main.py lines 267-354). -/
def handleDetectSections (body : Option (List String))
    (parsed : Except String (List (Option String × List PWord))) :
    HResp (List DocSection × Nat) :=
  match body with
  | none => ⟨400, .error "pdf_base64 required"⟩
  | some keys =>
    if keys = [] ∨ "pdf_base64" ∉ keys then ⟨400, .error "pdf_base64 required"⟩
    else
      match parsed with
      | .error e => ⟨500, .error e⟩
      | .ok pages => ⟨200, .ok (mainDetectSections pages)⟩

/-- HTTP wrapper of `extract_figures` (main.py lines 363-420). -/
def handleExtractFigures (body : Option (List String))
    (parsed : Except String (List (List ImgMeta))) :
    HResp (List SimpleFigOut × Nat) :=
  match body with
  | none => ⟨400, .error "pdf_base64 required"⟩
  | some keys =>
    if keys = [] ∨ "pdf_base64" ∉ keys then ⟨400, .error "pdf_base64 required"⟩
    else
      match parsed with
      | .error e => ⟨500, .error e⟩
      | .ok pages =>
        ⟨200, .ok (extractFiguresCore pages, (extractFiguresCore pages).length)⟩

/-- HTTP wrapper of `capture_highlights` (main.py lines 429-561), keeping
the source's order of fallible steps: base64 decoding happens before the
`highlights` emptiness check, `fitz.open` after it.  `highlights` models
`data.get('highlights', [])` (missing key = empty list). -/
def handleCaptureHighlights (body : Option (List String))
    (highlights : List Highlight) (decoded : Except String Unit)
    (opened : Except String Nat) : HResp (List Screenshot × Nat) :=
  match body with
  | none => ⟨400, .error "pdf_base64 required"⟩
  | some keys =>
    if keys = [] ∨ "pdf_base64" ∉ keys then ⟨400, .error "pdf_base64 required"⟩
    else
      match decoded with
      | .error e => ⟨500, .error e⟩
      | .ok _ =>
        if highlights = [] then ⟨400, .error "highlights array required"⟩
        else
          match opened with
          | .error e => ⟨500, .error e⟩
          | .ok ndoc =>
            ⟨200, .ok (captureLoop ndoc highlights,
              (captureLoop ndoc highlights).length)⟩

/-- HTTP wrapper of `generate_html_report` (main.py lines 570-852); the
success payload is (`html`, `screenshots`, `timestamp`). -/
def handleGenerateHtmlReport (body : Option (List String))
    (parsed : Except String ReportReq) (timestamp : String) :
    HResp (String × Nat × String) :=
  match body with
  | none => ⟨400, .error "pdf_base64 required"⟩
  | some keys =>
    if keys = [] ∨ "pdf_base64" ∉ keys then ⟨400, .error "pdf_base64 required"⟩
    else
      match parsed with
      | .error e => ⟨500, .error e⟩
      | .ok req =>
        ⟨200, .ok (generateHtmlReportCore req timestamp, req.shots.length, timestamp)⟩

/-- HTTP wrapper of `extract_tables_enhanced` (main.py lines 861-990);
`dc` is `data.get('detect_captions', True)`. -/
def handleExtractTablesEnhanced (body : Option (List String)) (dc : Bool)
    (parsed : Except String (List (Option String × List (List (List (Option String)))))) :
    HResp (List TableOut × Nat) :=
  match body with
  | none => ⟨400, .error "pdf_base64 required"⟩
  | some keys =>
    if keys = [] ∨ "pdf_base64" ∉ keys then ⟨400, .error "pdf_base64 required"⟩
    else
      match parsed with
      | .error e => ⟨500, .error e⟩
      | .ok pages =>
        ⟨200, .ok (extractTablesEnhancedCore dc pages,
          (extractTablesEnhancedCore dc pages).length)⟩

/-- HTTP wrapper of `extract_figures_enhanced` (main.py lines 999-1124);
`ms` is `data.get('min_size', 50)`. -/
def handleExtractFiguresEnhanced (body : Option (List String)) (ms : Nat)
    (parsed : Except String (List (String × List ImgIn))) :
    HResp (List FigOut × Nat) :=
  match body with
  | none => ⟨400, .error "pdf_base64 required"⟩
  | some keys =>
    if keys = [] ∨ "pdf_base64" ∉ keys then ⟨400, .error "pdf_base64 required"⟩
    else
      match parsed with
      | .error e => ⟨500, .error e⟩
      | .ok pages =>
        ⟨200, .ok (extractFiguresEnhancedCore ms pages,
          (extractFiguresEnhancedCore ms pages).length)⟩

theorem simpleHandlerSpec {α β : Type} (f : α → β)
    (H : Option (List String) → Except String α → HResp β)
    (hH : ∀ body parsed, H body parsed =
      match body with
      | none => ⟨400, .error "pdf_base64 required"⟩
      | some keys =>
        if keys = [] ∨ "pdf_base64" ∉ keys then ⟨400, .error "pdf_base64 required"⟩
        else
          match parsed with
          | .error e => ⟨500, .error e⟩
          | .ok x => ⟨200, .ok (f x)⟩) :
    ∀ body parsed,
      ((H body parsed = ⟨400, .error "pdf_base64 required"⟩) ↔ noPdfKey body) ∧
      ((∃ e, H body parsed = ⟨500, .error e⟩)
        ↔ (¬ noPdfKey body ∧ ∃ e, parsed = .error e)) ∧
      ((∃ a, (H body parsed).body = .ok a)
        → (¬ noPdfKey body ∧ ∃ v, parsed = .ok v)) := by
  intro body parsed
  cases body with
  | none =>
    simp only [hH]
    refine ⟨by simp [noPdfKey], ?_, ?_⟩
    · constructor
      · rintro ⟨e, he⟩
        simp [HResp.mk.injEq] at he
      · rintro ⟨hn, _⟩
        exact absurd trivial hn
    · rintro ⟨a, ha⟩
      simp at ha
  | some keys =>
    simp only [hH]
    by_cases hcond : keys = [] ∨ "pdf_base64" ∉ keys
    · rw [if_pos hcond]
      have hnk : noPdfKey (some keys) := by
        rcases hcond with h | h
        · subst h
          intro hm
          cases hm
        · exact h
      refine ⟨by simp [hnk], ?_, ?_⟩
      · constructor
        · rintro ⟨e, he⟩
          simp [HResp.mk.injEq] at he
        · rintro ⟨hn, _⟩
          exact absurd hnk hn
      · rintro ⟨a, ha⟩
        simp at ha
    · rw [if_neg hcond]
      push_neg at hcond
      obtain ⟨hne, hmem⟩ := hcond
      have hnk : ¬ noPdfKey (some keys) := fun hc => hc hmem
      cases parsed with
      | error e =>
        refine ⟨?_, ?_, ?_⟩
        · simp only [HResp.mk.injEq]
          constructor
          · rintro ⟨h5, _⟩
            exact absurd h5 (by decide)
          · intro hk
            exact absurd hk hnk
        · constructor
          · intro _
            exact ⟨hnk, e, rfl⟩
          · intro _
            exact ⟨e, rfl⟩
        · rintro ⟨a, ha⟩
          simp at ha
      | ok x =>
        refine ⟨?_, ?_, ?_⟩
        · simp only [HResp.mk.injEq]
          constructor
          · rintro ⟨h2, _⟩
            exact absurd h2 (by decide)
          · intro hk
            exact absurd hk hnk
        · constructor
          · rintro ⟨e, he⟩
            simp [HResp.mk.injEq] at he
          · rintro ⟨_, e, he⟩
            cases he
        · intro _
          exact ⟨hnk, x, rfl⟩

/-- The error-handling contract claim C8 asserts of one JSON-body wrapper:
400 with `{"error": "pdf_base64 required"}` exactly when the body is
missing or lacks `pdf_base64`; 500 with an error body exactly when
processing raised; a success payload only on the no-error path. -/
def WrapperSpec {α β : Type}
    (H : Option (List String) → Except String α → HResp β) : Prop :=
  ∀ body parsed,
    ((H body parsed = ⟨400, .error "pdf_base64 required"⟩) ↔ noPdfKey body) ∧
    ((∃ e, H body parsed = ⟨500, .error e⟩)
      ↔ (¬ noPdfKey body ∧ ∃ e, parsed = .error e)) ∧
    ((∃ a, (H body parsed).body = .ok a)
      → (¬ noPdfKey body ∧ ∃ v, parsed = .ok v))

theorem captureHandlerSpec :
    ∀ (body : Option (List String)) (highlights : List Highlight)
      (decoded : Except String Unit) (opened : Except String Nat),
      ((handleCaptureHighlights body highlights decoded opened
          = ⟨400, .error "pdf_base64 required"⟩) ↔ noPdfKey body) ∧
      ((∃ e, handleCaptureHighlights body highlights decoded opened
          = ⟨500, .error e⟩)
        ↔ (¬ noPdfKey body ∧ ((∃ e, decoded = .error e)
            ∨ (decoded = .ok () ∧ highlights ≠ [] ∧ ∃ e, opened = .error e)))) ∧
      ((∃ a, (handleCaptureHighlights body highlights decoded opened).body = .ok a)
        → (¬ noPdfKey body ∧ decoded = .ok () ∧ highlights ≠ []
            ∧ ∃ n, opened = .ok n)) := by
  intro body highlights decoded opened
  cases body with
  | none =>
    simp only [handleCaptureHighlights]
    refine ⟨by simp [noPdfKey], ?_, ?_⟩
    · constructor
      · rintro ⟨e, he⟩
        simp [HResp.mk.injEq] at he
      · rintro ⟨hn, _⟩
        exact absurd trivial hn
    · rintro ⟨a, ha⟩
      simp at ha
  | some keys =>
    simp only [handleCaptureHighlights]
    by_cases hcond : keys = [] ∨ "pdf_base64" ∉ keys
    · rw [if_pos hcond]
      have hnk : noPdfKey (some keys) := by
        rcases hcond with h | h
        · subst h
          intro hm
          cases hm
        · exact h
      refine ⟨by simp [hnk], ?_, ?_⟩
      · constructor
        · rintro ⟨e, he⟩
          simp [HResp.mk.injEq] at he
        · rintro ⟨hn, _⟩
          exact absurd hnk hn
      · rintro ⟨a, ha⟩
        simp at ha
    · rw [if_neg hcond]
      push_neg at hcond
      obtain ⟨hne, hmem⟩ := hcond
      have hnk : ¬ noPdfKey (some keys) := fun hc => hc hmem
      cases decoded with
      | error e =>
        refine ⟨?_, ?_, ?_⟩
        · simp only [HResp.mk.injEq]
          constructor
          · rintro ⟨h5, _⟩
            exact absurd h5 (by decide)
          · intro hk
            exact absurd hk hnk
        · constructor
          · intro _
            exact ⟨hnk, Or.inl ⟨e, rfl⟩⟩
          · intro _
            exact ⟨e, rfl⟩
        · rintro ⟨a, ha⟩
          simp at ha
      | ok u =>
        cases u
        by_cases hhl : highlights = []
        · rw [if_pos hhl]
          refine ⟨?_, ?_, ?_⟩
          · simp only [HResp.mk.injEq]
            constructor
            · rintro ⟨_, hmsg⟩
              rw [Except.error.injEq] at hmsg
              exact absurd hmsg (by decide)
            · intro hk
              exact absurd hk hnk
          · constructor
            · rintro ⟨e, he⟩
              simp [HResp.mk.injEq] at he
            · rintro ⟨_, h | ⟨_, hne2, _⟩⟩
              · rcases h with ⟨e, he⟩
                cases he
              · exact absurd hhl hne2
          · rintro ⟨a, ha⟩
            simp at ha
        · rw [if_neg hhl]
          cases opened with
          | error e =>
            refine ⟨?_, ?_, ?_⟩
            · simp only [HResp.mk.injEq]
              constructor
              · rintro ⟨h5, _⟩
                exact absurd h5 (by decide)
              · intro hk
                exact absurd hk hnk
            · constructor
              · intro _
                exact ⟨hnk, Or.inr ⟨rfl, hhl, e, rfl⟩⟩
              · intro _
                exact ⟨e, rfl⟩
            · rintro ⟨a, ha⟩
              simp at ha
          | ok n =>
            refine ⟨?_, ?_, ?_⟩
            · simp only [HResp.mk.injEq]
              constructor
              · rintro ⟨h2, _⟩
                exact absurd h2 (by decide)
              · intro hk
                exact absurd hk hnk
            · constructor
              · rintro ⟨e, he⟩
                simp [HResp.mk.injEq] at he
              · rintro ⟨_, h | ⟨_, _, e, he⟩⟩
                · rcases h with ⟨e, he⟩
                  cases he
                · cases he
            · intro _
              exact ⟨hnk, rfl, hhl, n, rfl⟩

/-- C8: every JSON-body HTTP function of main.py returns status 400 with
`{"error": "pdf_base64 required"}` exactly when the request body is missing
or lacks `pdf_base64` (for `extract_text_with_layout`, on its JSON branch),
returns status 500 with a JSON error body exactly when the processing
pipeline raises, and produces a success payload only on the no-error path. -/
theorem http_wrappers_error_handling :
    WrapperSpec (handleExtractTextWithLayout none) ∧
    WrapperSpec handleExtractTables ∧
    WrapperSpec handleExtractTextWithPositions ∧
    WrapperSpec handleDetectSections ∧
    WrapperSpec handleExtractFigures ∧
    (∀ body highlights decoded opened,
      ((handleCaptureHighlights body highlights decoded opened
          = ⟨400, .error "pdf_base64 required"⟩) ↔ noPdfKey body) ∧
      ((∃ e, handleCaptureHighlights body highlights decoded opened
          = ⟨500, .error e⟩)
        ↔ (¬ noPdfKey body ∧ ((∃ e, decoded = .error e)
            ∨ (decoded = .ok () ∧ highlights ≠ [] ∧ ∃ e, opened = .error e)))) ∧
      ((∃ a, (handleCaptureHighlights body highlights decoded opened).body = .ok a)
        → (¬ noPdfKey body ∧ decoded = .ok () ∧ highlights ≠ []
            ∧ ∃ n, opened = .ok n))) ∧
    (∀ timestamp, WrapperSpec (fun b p => handleGenerateHtmlReport b p timestamp)) ∧
    (∀ dc, WrapperSpec (fun b p => handleExtractTablesEnhanced b dc p)) ∧
    (∀ ms, WrapperSpec (fun b p => handleExtractFiguresEnhanced b ms p)) := by
  refine ⟨?_, ?_, ?_, ?_, ?_, captureHandlerSpec, ?_, ?_, ?_⟩
  · exact simpleHandlerSpec extractTextWithLayoutCore _ (by intro body parsed; cases body <;> cases parsed <;> rfl)
  · exact simpleHandlerSpec
      (fun pages => (extractTablesCore pages, (extractTablesCore pages).length)) _
      (by intro body parsed; cases body <;> cases parsed <;> rfl)
  · exact simpleHandlerSpec extractTextWithPositionsCore _ (by intro body parsed; cases body <;> cases parsed <;> rfl)
  · exact simpleHandlerSpec mainDetectSections _ (by intro body parsed; cases body <;> cases parsed <;> rfl)
  · exact simpleHandlerSpec
      (fun pages => (extractFiguresCore pages, (extractFiguresCore pages).length)) _
      (by intro body parsed; cases body <;> cases parsed <;> rfl)
  · intro timestamp
    exact simpleHandlerSpec
      (fun req => (generateHtmlReportCore req timestamp, req.shots.length, timestamp)) _
      (by intro body parsed; cases body <;> cases parsed <;> rfl)
  · intro dc
    exact simpleHandlerSpec
      (fun pages => (extractTablesEnhancedCore dc pages,
        (extractTablesEnhancedCore dc pages).length)) _
      (by intro body parsed; cases body <;> cases parsed <;> rfl)
  · intro ms
    exact simpleHandlerSpec
      (fun pages => (extractFiguresEnhancedCore ms pages,
        (extractFiguresEnhancedCore ms pages).length)) _
      (by intro body parsed; cases body <;> cases parsed <;> rfl)

/-- C8 witness: the contract applied at concrete inputs — a missing body
gives the 400 response, and a good body with a failing parse gives a 500
response, shown here for `detect_sections`. -/
theorem http_wrappers_error_handling_witness :
    handleDetectSections none (.ok [])
      = ⟨400, .error "pdf_base64 required"⟩ ∧
    (∃ e, handleDetectSections (some ["pdf_base64"]) (.error "boom")
      = ⟨500, .error e⟩) := by
  have h := http_wrappers_error_handling
  constructor
  · exact (h.2.2.2.1 none (.ok [])).1.mpr trivial
  · exact (h.2.2.2.1 (some ["pdf_base64"]) (.error "boom")).2.1.mpr
      ⟨fun hc => hc (by decide), "boom", rfl⟩

/-! ## Claim C10 -/

theorem captureLoop_filter (n : Nat) (hs : List Highlight) :
    captureLoop n hs
      = (hs.filter (fun h => decide (1 ≤ h.page.getD 1 ∧ h.page.getD 1 ≤ (n : Int)))).map
          (fun h => ⟨h.page.getD 1, h.hlabel.getD "", h.htext.getD ""⟩) := by
  induction hs with
  | nil => rfl
  | cons h rest ih =>
    simp only [captureLoop, List.filter_cons]
    by_cases hin : 1 ≤ h.page.getD 1 ∧ h.page.getD 1 ≤ (n : Int)
    · have hcond : ¬ (h.page.getD 1 - 1 < 0 ∨ (n : Int) ≤ h.page.getD 1 - 1) := by
        omega
      rw [if_neg hcond]
      rw [show decide (1 ≤ h.page.getD 1 ∧ h.page.getD 1 ≤ (n : Int)) = true by
        simp [hin]]
      simp only [if_pos, List.map_cons]
      rw [ih]
    · have hcond : h.page.getD 1 - 1 < 0 ∨ (n : Int) ≤ h.page.getD 1 - 1 := by
        omega
      rw [if_pos hcond]
      rw [show decide (1 ≤ h.page.getD 1 ∧ h.page.getD 1 ≤ (n : Int)) = false by
        simp [hin]]
      simp only [Bool.false_eq_true, if_false]
      exact ih

/-- C10: `capture_highlights` returns status 400 with an error when the
`highlights` array is missing or empty (the body check having passed and
base64 decoding succeeded); otherwise every highlight whose page number is
less than 1 or greater than the page count produces no screenshot, each
remaining highlight produces exactly one screenshot in input order — the
screenshots list is the in-range filter of the highlights, mapped to their
records — and `screenshot_count` is the number of in-range highlights. -/
theorem capture_highlights_spec :
    (∀ (body : Option (List String)) (highlights : List Highlight)
        (opened : Except String Nat), ¬ noPdfKey body → highlights = [] →
      handleCaptureHighlights body highlights (.ok ()) opened
        = ⟨400, .error "highlights array required"⟩) ∧
    (∀ (n : Nat) (hs : List Highlight),
      captureLoop n hs
        = (hs.filter (fun h => decide (1 ≤ h.page.getD 1 ∧ h.page.getD 1 ≤ (n : Int)))).map
            (fun h => ⟨h.page.getD 1, h.hlabel.getD "", h.htext.getD ""⟩) ∧
      (captureLoop n hs).length
        = (hs.filter (fun h =>
            decide (1 ≤ h.page.getD 1 ∧ h.page.getD 1 ≤ (n : Int)))).length) ∧
    (∀ (body : Option (List String)) (hs : List Highlight) (n : Nat),
      ¬ noPdfKey body → hs ≠ [] →
      handleCaptureHighlights body hs (.ok ()) (.ok n)
        = ⟨200, .ok (captureLoop n hs, (captureLoop n hs).length)⟩) := by
  refine ⟨?_, ?_, ?_⟩
  · intro body highlights opened hb hh
    cases body with
    | none => exact absurd trivial hb
    | some keys =>
      have hmem : "pdf_base64" ∈ keys := by
        by_contra hc
        exact hb hc
      simp only [handleCaptureHighlights]
      rw [if_neg (by
        rintro (h | h)
        · subst h
          cases hmem
        · exact h hmem)]
      rw [if_pos hh]
  · intro n hs
    refine ⟨captureLoop_filter n hs, ?_⟩
    rw [captureLoop_filter n hs, List.length_map]
  · intro body hs n hb hh
    cases body with
    | none => exact absurd trivial hb
    | some keys =>
      have hmem : "pdf_base64" ∈ keys := by
        by_contra hc
        exact hb hc
      simp only [handleCaptureHighlights]
      rw [if_neg (by
        rintro (h | h)
        · subst h
          cases hmem
        · exact h hmem)]
      rw [if_neg hh]

/-- C10 witness: a concrete run — empty highlights give the 400 response; a
two-highlight request against a 3-page document keeps the page-1 highlight
and drops the page-5 one. -/
theorem capture_highlights_spec_witness :
    handleCaptureHighlights (some ["pdf_base64"]) [] (.ok ()) (.ok 3)
      = ⟨400, .error "highlights array required"⟩ ∧
    handleCaptureHighlights (some ["pdf_base64"])
        [⟨some 1, some "L", some "T", none, none, none, none⟩,
         ⟨some 5, none, none, none, none, none, none⟩] (.ok ()) (.ok 3)
      = ⟨200, .ok ([⟨1, "L", "T"⟩], 1)⟩ := by
  have h := capture_highlights_spec
  constructor
  · exact h.1 (some ["pdf_base64"]) [] (.ok 3) (fun hc => hc (by decide)) rfl
  · have h3 := h.2.2 (some ["pdf_base64"])
      [⟨some 1, some "L", some "T", none, none, none, none⟩,
       ⟨some 5, none, none, none, none, none, none⟩] 3
      (fun hc => hc (by decide)) (by decide)
    rw [h3]
    rw [show captureLoop 3
        [⟨some 1, some "L", some "T", none, none, none, none⟩,
         ⟨some 5, none, none, none, none, none, none⟩] = [⟨1, "L", "T"⟩] by decide]
    rfl
